import Mathlib

/-!
Verification development for the NeuroRoute routing gateway.

This file gives a shallow embedding, in Lean 4, of the parts of the
NeuroRoute source that the verified properties talk about:

* `src/cache.py`      — `Cache._generate_key`, `Cache.get`, `Cache.set`
* `src/classifier.py` — `PromptClassifier.classify_prompt` and its pipeline
* `src/router.py`     — `ModelRouter._update_metrics`, the metric-update
                        discipline of `route_prompt`, the health gate and
                        `_get_fallback_model_order`
* `src/models/base_adapter.py` — the `measure_latency` wrapper
* `src/config.py`     — `INTENT_KEYWORDS`, the static model registry and the
                        fallback configuration

Python dictionaries are embedded as association lists with Python `dict`
semantics (first-match lookup, in-place replacement on key reassignment,
insertion order preserved, new keys appended at the end).  Python `float`
arithmetic is embedded as exact rational arithmetic (`ℚ`); every numeric
fact proved below is robust to this choice: the concrete values involved
are small dyadic/decimal constants or ratios whose comparisons have ample
slack.  `hashlib.sha256(.).hexdigest()` is an (injectivity-free) opaque
parameter of the cache model, and Python's process-seeded `hash()` used by
the classifier memo key is embedded by the hashed string itself (equal
strings give equal keys, which is the only property the memo relies on).
Wall-clock time is passed explicitly (`now` parameters); awaited I/O calls
are embedded by their results.
-/

namespace NeuroRoute

/-- A JSON-like value, the payload type of embedded Python dictionaries.
`vlistStr` covers the list-of-strings values used by
`metadata["required_capabilities"]`. -/
inductive Val where
  | vstr (s : String)
  | vint (n : Int)
  | vrat (q : ℚ)
  | vbool (b : Bool)
  | vnull
  | vlistStr (xs : List String)
deriving DecidableEq, Repr

/-- Python truthiness of a `Val` (`bool(v)`). -/
def Val.truthy : Val → Bool
  | .vstr s => !s.isEmpty
  | .vint n => n != 0
  | .vrat q => q != 0
  | .vbool b => b
  | .vnull => false
  | .vlistStr xs => !xs.isEmpty

/-- Python `str(v)` for the values that reach string interpolation sites
(only strings do in the embedded code paths). -/
def Val.pyStr : Val → String
  | .vstr s => s
  | .vint n => toString n
  | .vrat q => toString q
  | .vbool b => if b then "True" else "False"
  | .vnull => "None"
  | .vlistStr xs => toString xs

/-- An embedded Python dictionary: an association list in insertion order.
Well-formed dictionaries have pairwise-distinct keys (`DictNodup`). -/
def Dict := List (String × Val)
deriving DecidableEq, Repr

instance : Append Dict := ⟨fun a b => List.append a b⟩

instance : EmptyCollection Dict := ⟨([] : List (String × Val))⟩

/-- `d[k]` / `d.get(k)`: the value at the first occurrence of key `k`. -/
def dictGet (d : Dict) (k : String) : Option Val :=
  (List.find? (fun p => p.1 == k) d).map Prod.snd

/-- `d.get(k, dflt)`. -/
def dictGetD (d : Dict) (k : String) (dflt : Val) : Val :=
  (dictGet d k).getD dflt

/-- `k in d`. -/
def dictContains (d : Dict) (k : String) : Bool :=
  (dictGet d k).isSome

/-- Replace the value stored at key `k` in place (every matching entry;
with distinct keys, the one entry). -/
def dictReplace : List (String × Val) → String → Val → List (String × Val)
  | [], _, _ => []
  | p :: rest, k, v =>
    match p.1 == k with
    | true => (k, v) :: dictReplace rest k v
    | false => p :: dictReplace rest k v

/-- `d[k] = v`: replace in place if the key exists, else append. -/
def dictInsert (d : Dict) (k : String) (v : Val) : Dict :=
  if dictContains d k then dictReplace d k v
  else List.append d [(k, v)]

/-- `del d[k]` (total: removes nothing when the key is absent, matching the
guarded `if field in d: del d[field]` sites in the source). -/
def dictErase (d : Dict) (k : String) : Dict :=
  List.filter (fun p => p.1 != k) d

/-- The keys of a dictionary, in insertion order. -/
def dictKeys (d : Dict) : List String :=
  List.map Prod.fst d

/-- Well-formedness: pairwise-distinct keys, as in every Python `dict`. -/
def DictNodup (d : Dict) : Prop :=
  (dictKeys d).Nodup

/-! ### Code-point string order

`json.dumps(..., sort_keys=True)` sorts dictionary keys with Python's `str`
comparison, i.e. lexicographically by code point.  Mathlib's `String` order
is not kernel-reducible, so we define the comparison directly on character
lists; all keys sorted by the embedded code are ASCII. -/

/-- Lexicographic (code-point) `≤` on character lists. -/
def lexLe : List Char → List Char → Bool
  | [], _ => true
  | _ :: _, [] => false
  | a :: as, b :: bs =>
    if a.toNat < b.toNat then true
    else if b.toNat < a.toNat then false
    else lexLe as bs

/-- Code-point `≤` on strings (Python `str` comparison). -/
def strLe (a b : String) : Bool :=
  lexLe a.data b.data

theorem lexLe_total : ∀ a b, (lexLe a b || lexLe b a) = true
  | [], _ => by simp [lexLe]
  | _ :: _, [] => by simp [lexLe]
  | a :: as, b :: bs => by
    by_cases hab : a.toNat < b.toNat
    · simp [lexLe, hab]
    · by_cases hba : b.toNat < a.toNat
      · simp [lexLe, hab, hba]
      · simpa [lexLe, hab, hba] using lexLe_total as bs

theorem lexLe_trans : ∀ a b c, lexLe a b = true → lexLe b c = true →
    lexLe a c = true
  | [], _, _, _, _ => by simp [lexLe]
  | _ :: _, [], _, h, _ => by simp [lexLe] at h
  | _ :: _, _ :: _, [], _, h => by simp [lexLe] at h
  | a :: as, b :: bs, c :: cs, h1, h2 => by
    by_cases hab : a.toNat < b.toNat
    · by_cases hbc : b.toNat < c.toNat
      · simp [lexLe, show a.toNat < c.toNat by omega]
      · by_cases hcb : c.toNat < b.toNat
        · simp [lexLe, hbc, hcb] at h2
        · simp [lexLe, show a.toNat < c.toNat by omega]
    · by_cases hba : b.toNat < a.toNat
      · simp [lexLe, hab, hba] at h1
      · by_cases hbc : b.toNat < c.toNat
        · simp [lexLe, show a.toNat < c.toNat by omega]
        · by_cases hcb : c.toNat < b.toNat
          · simp [lexLe, hbc, hcb] at h2
          · simp only [lexLe, if_neg hab, if_neg hba] at h1
            simp only [lexLe, if_neg hbc, if_neg hcb] at h2
            simp only [lexLe, if_neg (show ¬ a.toNat < c.toNat by omega),
              if_neg (show ¬ c.toNat < a.toNat by omega)]
            exact lexLe_trans as bs cs h1 h2

theorem lexLe_antisymm : ∀ a b, lexLe a b = true → lexLe b a = true → a = b
  | [], [], _, _ => rfl
  | _ :: _, [], h, _ => by simp [lexLe] at h
  | [], _ :: _, _, h => by simp [lexLe] at h
  | a :: as, b :: bs, h1, h2 => by
    by_cases hab : a.toNat < b.toNat
    · simp [lexLe, show ¬ b.toNat < a.toNat by omega, hab] at h2
    · by_cases hba : b.toNat < a.toNat
      · simp [lexLe, hab, hba] at h1
      · have h3 : a.toNat = b.toNat := by omega
        have hv : a = b := Char.eq_of_val_eq (UInt32.toNat.inj h3)
        subst hv
        simp only [lexLe, if_neg hab, if_neg hba] at h1 h2
        exact congrArg (a :: ·) (lexLe_antisymm as bs h1 h2)

theorem strLe_antisymm (a b : String) (h1 : strLe a b = true)
    (h2 : strLe b a = true) : a = b := by
  cases a; cases b
  exact congrArg String.mk (lexLe_antisymm _ _ h1 h2)

/-! ### `json.dumps`

A deterministic renderer standing for `json.dumps`.  Only determinism and
congruence (equal inputs render equally) are used by the theorems below, so
the escaping of special characters inside strings is not reproduced. -/

/-- Rendering of a JSON string literal.  (Escape sequences are not
reproduced; the renderer is only used for its congruence.) -/
def dumpStr (s : String) : String :=
  "\"" ++ s ++ "\""

/-- Rendering of a `Val` as `json.dumps` renders it. -/
def dumpVal : Val → String
  | .vstr s => dumpStr s
  | .vint n => toString n
  | .vrat q => toString q
  | .vbool b => if b then "true" else "false"
  | .vnull => "null"
  | .vlistStr xs => "[" ++ String.intercalate ", " (xs.map dumpStr) ++ "]"

/-- `json.dumps(d, sort_keys=True)` for a dictionary: entries sorted by key
(code-point order), `", "` / `": "` separators as in the Python default. -/
def dumpDictSorted (d : Dict) : String :=
  let ks := List.mergeSort (dictKeys d) strLe
  "\x7b" ++
    String.intercalate ", "
      (ks.map (fun k => dumpStr k ++ ": " ++ dumpVal (dictGetD d k .vnull))) ++
    "\x7d"

/-! ### Cache (`src/cache.py`)

The Redis store backing the cache is embedded as an explicit `CacheStore`
value threaded through `get`/`set`.  `_ensure_connection()` (a network
ping) is embedded by the boolean `connOK`; when it is `false` the embedded
operations return absent / no-op, as the source does on a failed
connection.  Redis `SETEX`/`GET` round-trip `json.dumps`/`json.loads`; the
embedded store holds the dictionary values themselves. -/

/-- The cache-instance constants of `Cache.__init__`:  `self.prefix`,
`self.ttl`, the SHA-256 hex digest (opaque), and the outcome of
`_ensure_connection()`. -/
structure CacheInst where
  pref : String
  ttl : Int
  hashHex : String → String
  connOK : Bool

/-- The external Redis state: the `SETEX`ed entries (key ↦ (ttl, envelope))
and the `models:<backend>` index sets maintained by `Cache.set`. -/
structure CacheStore where
  entries : List (String × (Val × Dict))
  modelIndex : List (String × List String)
deriving DecidableEq, Repr

/-- Lookup of a stored entry by key. -/
def storeFind (st : CacheStore) (key : String) : Option (Val × Dict) :=
  (List.find? (fun p => p.1 == key) st.entries).map Prod.snd

/-- Replace the entry stored at `key` in place. -/
def entriesReplace : List (String × (Val × Dict)) → String → Val × Dict →
    List (String × (Val × Dict))
  | [], _, _ => []
  | p :: rest, k, v =>
    match p.1 == k with
    | true => (k, v) :: entriesReplace rest k v
    | false => p :: entriesReplace rest k v

/-- `SETEX key ttl value`: overwrite in place or append. -/
def storeSetex (st : CacheStore) (key : String) (ttl : Val) (v : Dict) :
    CacheStore :=
  { st with
    entries :=
      if (List.find? (fun p => p.1 == key) st.entries).isSome then
        entriesReplace st.entries key (ttl, v)
      else
        st.entries ++ [(key, (ttl, v))] }

/-- `SADD setKey member`: add `member` to the set at `setKey`. -/
def storeSadd (st : CacheStore) (setKey member : String) : CacheStore :=
  { st with
    modelIndex :=
      match List.find? (fun p => p.1 == setKey) st.modelIndex with
      | some _ =>
          st.modelIndex.map (fun p =>
            if p.1 == setKey then
              (p.1, if p.2.contains member then p.2 else p.2 ++ [member])
            else p)
      | none => st.modelIndex ++ [(setKey, [member])] }

/-- `Cache._generate_key`'s set of cache-relevant metadata fields. -/
def cacheRelevantFields : List String :=
  ["model", "temperature", "max_tokens", "user_id", "priority", "language",
   "stream"]

namespace Cache

/-- `Cache._generate_key(prompt, metadata)`: filter the metadata to the
cache-relevant fields, add `forced_model` when `model` is present, hash
the sorted-keys JSON of `{"prompt": ..., "metadata": ...}`, and prefix the
model name when forced. -/
def generate_key (c : CacheInst) (prompt : String) (metadata : Dict) :
    String :=
  let filtered : Dict :=
    List.filter (fun p => cacheRelevantFields.contains p.1) metadata
  let filtered :=
    if dictContains metadata "model" then
      dictInsert filtered "forced_model"
        (dictGetD metadata "model" .vnull)
    else filtered
  let serialized :=
    "\x7b\"metadata\": " ++ dumpDictSorted filtered ++
      ", \"prompt\": " ++ dumpStr prompt ++ "\x7d"
  let keyHash := c.hashHex serialized
  let modelPref :=
    if dictContains metadata "model" then
      (dictGetD metadata "model" .vnull).pyStr ++ ":"
    else ""
  c.pref ++ modelPref ++ keyHash

/-- `Cache.get(prompt, metadata)`: on hit, the stored envelope with
`from_cache=True` and the fingerprint as `cache_key`; on miss or while
disconnected, absent. -/
def get (c : CacheInst) (st : CacheStore) (prompt : String)
    (metadata : Dict) : Option Dict :=
  if !c.connOK then none
  else
    let key := generate_key c prompt metadata
    match storeFind st key with
    | some (_, cached) =>
        some (dictInsert (dictInsert cached "from_cache" (.vbool true))
          "cache_key" (.vstr key))
    | none => none

/-- A basic heap of Python dictionary objects, to make the in-place
mutations of `Cache.set` (the `.copy()` and the `del`s on the copy)
explicit.  References are list indices. -/
def Heap := List Dict
deriving DecidableEq, Repr

instance : Append Heap := ⟨fun a b => List.append a b⟩

/-- Read a heap reference (defaulting to the empty dictionary for an
invalid reference, which the embedded code never produces). -/
def heapRead (h : Heap) (r : Nat) : Dict :=
  (List.getD h r ({} : Dict))

/-- In-place update of the object at reference `r`. -/
def heapWrite (h : Heap) (r : Nat) (f : Dict → Dict) : Heap :=
  List.set h r (f (heapRead h r))

/-- Allocate a fresh object (`d.copy()` allocates): append at the end; the
new reference is the old length. -/
def heapAlloc (h : Heap) (d : Dict) : Heap :=
  List.append h [d]

/-- The result of `Cache.set`: the new store, the heap after the call
(the caller's envelope object lives in it), and the returned boolean. -/
structure SetResult where
  store : CacheStore
  heap : Heap
  ok : Bool
deriving DecidableEq, Repr

/-- `Cache.set(prompt, response, metadata)` with the `response` argument
given as the reference `respRef` into `heap`.  Transcribed from
`src/cache.py` lines 215–264: bail out when disconnected; compute the key;
`response_to_cache = response.copy()`; delete the provenance fields
`from_cache`, `cache_key`, `cache_latency_ms` from the copy; compute the
TTL (`metadata.get("cache_ttl", self.ttl)` when `metadata` is truthy);
refuse to store when the copy has truthy `error` or `fallback`; otherwise
`SETEX` the copy and `SADD` its key into the `models:<model_used>` set. -/
def setH (c : CacheInst) (st : CacheStore) (heap : Heap) (respRef : Nat)
    (prompt : String) (metadata : Dict) : SetResult :=
  if !c.connOK then ⟨st, heap, false⟩
  else
    let key := generate_key c prompt metadata
    let copyRef := heap.length
    let heap := heapAlloc heap (heapRead heap respRef)
    let heap := heapWrite heap copyRef (fun d => dictErase d "from_cache")
    let heap := heapWrite heap copyRef (fun d => dictErase d "cache_key")
    let heap := heapWrite heap copyRef (fun d => dictErase d "cache_latency_ms")
    let ttl : Val :=
      if !metadata.isEmpty then dictGetD metadata "cache_ttl" (.vint c.ttl)
      else .vint c.ttl
    let toCache := heapRead heap copyRef
    if (dictGetD toCache "error" (.vbool false)).truthy ||
        (dictGetD toCache "fallback" (.vbool false)).truthy then
      ⟨st, heap, false⟩
    else
      let st := storeSetex st key ttl toCache
      let st :=
        match dictGet toCache "model_used" with
        | some mu =>
            if mu.truthy then
              storeSadd st (c.pref ++ "models:" ++ mu.pyStr) key
            else st
        | none => st
      ⟨st, heap, true⟩

/-- `Cache.set` on an envelope value: the store effect and return value of
`setH` on a one-object heap holding the envelope. -/
def set (c : CacheInst) (st : CacheStore) (prompt : String) (response : Dict)
    (metadata : Dict) : CacheStore × Bool :=
  let r := setH c st [response] 0 prompt metadata
  (r.store, r.ok)

end Cache

/-! ### Classifier (`src/classifier.py`)

The classifier's regular expressions are all of two shapes: word-bounded
literal alternations (`\b kw \b`, optionally `re.IGNORECASE`) and the code
pattern (fenced block / inline backtick span / the words `function`,
`class`, `def`).  Both are embedded by direct scanners over character
lists with `re.findall`'s left-to-right non-overlapping semantics.  `\w`
is embedded at its ASCII extent `[A-Za-z0-9_]`, and `str.lower` at its
ASCII extent; every prompt evaluated concretely below is ASCII. -/

/-- `\w` (ASCII): letters, digits, underscore. -/
def isWordChar (c : Char) : Bool :=
  (48 ≤ c.toNat && c.toNat ≤ 57) || (65 ≤ c.toNat && c.toNat ≤ 90) ||
    (97 ≤ c.toNat && c.toNat ≤ 122) || c.toNat == 95

/-- `str.lower` on one character (ASCII). -/
def lowerChar (c : Char) : Char :=
  if 65 ≤ c.toNat && c.toNat ≤ 90 then Char.ofNat (c.toNat + 32) else c

/-- `str.lower` on a character list. -/
def lowerChars (cs : List Char) : List Char :=
  cs.map lowerChar

/-- `str.lower` on a string. -/
def lowerStr (s : String) : String :=
  String.mk (lowerChars s.data)

/-- Does `pat` occur literally in `text` starting at position `i`? -/
def matchesAt (pat text : List Char) (i : Nat) : Bool :=
  (text.drop i).take pat.length == pat

/-- `\b` holds just before position `i` for a pattern starting with a word
character: start of string or a non-word character at `i-1`. -/
def boundaryBefore (text : List Char) (i : Nat) : Bool :=
  i == 0 || !isWordChar (text.getD (i - 1) ' ')

/-- `\b` holds just after position `j` for a pattern ending with a word
character: end of string or a non-word character at `j`. -/
def boundaryAfter (text : List Char) (j : Nat) : Bool :=
  text.length ≤ j || !isWordChar (text.getD j ' ')

/-- A match of `\b pat \b` at position `i`.  All the embedded keyword
patterns start and end with word characters, for which `\b` reduces to
the two boundary checks. -/
def wordMatchAt (pat text : List Char) (i : Nat) : Bool :=
  matchesAt pat text i && boundaryBefore text i &&
    boundaryAfter text (i + pat.length)

/-- `re.findall` on a word-bounded alternation: scan left to right, try
the alternatives in order, and resume after a match (matches of these
patterns cannot overlap, so this is the count of matches). -/
def scanCountGo (alts : List (List Char)) (text : List Char) :
    Nat → Nat → Nat
  | 0, _ => 0
  | fuel + 1, i =>
    if text.length ≤ i then 0
    else
      match alts.find? (fun a => wordMatchAt a text i) with
      | some a => 1 + scanCountGo alts text fuel (i + max 1 a.length)
      | none => scanCountGo alts text fuel (i + 1)

/-- `len(pattern.findall(text))` for a word-bounded alternation. -/
def findallWordCount (alts : List (List Char)) (text : List Char) : Nat :=
  scanCountGo alts text (text.length + 1) 0

/-- `pattern.search(text) is not None` for a word-bounded alternation. -/
def searchWordAny (alts : List (List Char)) (text : List Char) : Bool :=
  (List.range (text.length + 1)).any
    (fun i => alts.any (fun a => wordMatchAt a text i))

/-- Maximal runs of characters satisfying `p`, in order.  With
`p = isWordChar` this is `re.findall(r'\b\w+\b', text)`; with
`p = not-whitespace` it is `str.split()`. -/
def charRunsGo (p : Char → Bool) : Nat → List Char → List (List Char)
  | 0, _ => []
  | _ + 1, [] => []
  | fuel + 1, c :: cs =>
    if p c then
      let run := (c :: cs).takeWhile p
      run :: charRunsGo p fuel ((c :: cs).dropWhile p)
    else charRunsGo p fuel cs

/-- Maximal runs of characters satisfying `p`. -/
def charRuns (p : Char → Bool) (cs : List Char) : List (List Char) :=
  charRunsGo p (cs.length + 1) cs

/-- Python `str.split()` whitespace. -/
def pyIsSpace (c : Char) : Bool :=
  c == ' ' || c == '\t' || c == '\n' || c == '\r' || c == '\x0b' ||
    c == '\x0c'

/-- `len(prompt.split())`. -/
def pySplitCount (p : String) : Nat :=
  (charRuns (fun c => !pyIsSpace c) p.data).length

/-- `re.findall(r'\b\w+\b', text)`: the maximal word-character runs. -/
def wordTokens (cs : List Char) : List (List Char) :=
  charRuns isWordChar cs

/-! #### The code pattern

`re.compile(r'```[\w]*\n[\s\S]*?\n```|`[^`]+`|\bfunction\b|\bclass\b|\bdef\b')`
(case-sensitive).  A fenced match at `i` is  ``` ``` ```, then the maximal
word-character run (`[\w]*` must end at a `\n`, and `\n` is not a word
character, so backtracking cannot shorten it), a newline, a lazily-minimal
body, and a closing `\n``` `. -/

/-- Three backticks at position `i`. -/
def tripleBacktickAt (text : List Char) (i : Nat) : Bool :=
  matchesAt ['`', '`', '`'] text i

/-- Length of the maximal word-character run starting at `i`. -/
def wordRunLenFrom (text : List Char) (i : Nat) : Nat :=
  ((text.drop i).takeWhile isWordChar).length

/-- Least position `j ≥ start` carrying the closing `\n``` `, if any. -/
def fencedCloseFrom (text : List Char) (start : Nat) : Option Nat :=
  (List.range' start (text.length - start)).find?
    (fun j => text.getD j 'x' == '\n' && tripleBacktickAt text (j + 1))

/-- A fenced-code-block match starting at `i`: returns the position just
after the match (lazy body: earliest close). -/
def fencedAt (text : List Char) (i : Nat) : Option Nat :=
  if tripleBacktickAt text i then
    let k := wordRunLenFrom text (i + 3)
    if text.getD (i + 3 + k) 'x' == '\n' then
      (fencedCloseFrom text (i + 4 + k)).map (fun j => j + 4)
    else none
  else none

/-- `len(re.findall(r'```[\w]*\n[\s\S]*?\n```', text))`: left-to-right
non-overlapping fenced-block matches. -/
def fencedCountGo (text : List Char) : Nat → Nat → Nat
  | 0, _ => 0
  | fuel + 1, i =>
    if text.length ≤ i then 0
    else
      match fencedAt text i with
      | some e => 1 + fencedCountGo text fuel e
      | none => fencedCountGo text fuel (i + 1)

/-- Count of fenced code blocks. -/
def fencedCount (text : List Char) : Nat :=
  fencedCountGo text (text.length + 1) 0

/-- Some fenced block occurs. -/
def fencedExists (text : List Char) : Bool :=
  (List.range text.length).any (fun i => (fencedAt text i).isSome)

/-- Positions of backticks, ascending. -/
def backtickPositions (text : List Char) : List Nat :=
  (List.range text.length).filter (fun i => text.getD i 'x' == '`')

/-- Two successive backticks at distance `≥ 2`, i.e. a `` `[^`]+` ``
span. -/
def adjacentGapGE2 : List Nat → Bool
  | a :: b :: rest => (a + 2 ≤ b) || adjacentGapGE2 (b :: rest)
  | _ => false

/-- `self.code_pattern.search(prompt)` succeeds: a fenced block, an inline
backtick span, or a (case-sensitive) whole word `function`/`class`/`def`. -/
def codeSearch (p : String) : Bool :=
  fencedExists p.data || adjacentGapGE2 (backtickPositions p.data) ||
    searchWordAny ["function".data, "class".data, "def".data] p.data

/-- The value of `_vocabulary_diversity`, `min(1.0, unique/total**0.7)`,
represented symbolically by its arguments `(unique, total)` (the real
exponentiation is irrational in general; the pair determines the value).
`zero` is the early return `0.0` on a wordless prompt. -/
inductive DivVal where
  | zero
  | ofWords (unique total : Nat)
deriving DecidableEq, Repr

/-- `PromptClassifier._vocabulary_diversity`. -/
def vocabulary_diversity (p : String) : DivVal :=
  let ws := wordTokens (lowerChars p.data)
  if ws.isEmpty then .zero else .ofWords ws.dedup.length ws.length

/-- `PromptClassifier._avg_word_length`: `min(1.0, (Σ len / count) / 8)`,
`0.0` on a wordless prompt. -/
def avg_word_length (p : String) : ℚ :=
  let ws := wordTokens (lowerChars p.data)
  if ws.isEmpty then 0
  else min 1 ((((ws.map List.length).sum : ℚ) / (ws.length : ℚ)) / 8)

/-! #### Configuration constants (`src/config.py`) -/

/-- `INTENT_KEYWORDS["local"]`. -/
def localKeywords : List String :=
  ["hello", "hi", "greetings", "create file", "basic math", "simple",
   "quick", "calculate", "help", "math", "what is", "example"]

/-- `INTENT_KEYWORDS["openai"]`. -/
def openaiKeywords : List String :=
  ["analyze", "summarize", "code", "compare", "write code", "debug",
   "complex", "explain", "how to", "review", "generate", "create function",
   "algorithm"]

/-- `INTENT_KEYWORDS["anthropic"]`. -/
def anthropicKeywords : List String :=
  ["long document", "legal", "detailed reasoning", "extensive", "thorough",
   "comprehensive", "ethical", "draft", "essay", "research", "in-depth"]

/-- Registry keys in insertion order (`get_model_registry`). -/
def registryKeys : List String :=
  ["local", "openai", "anthropic"]

/-- `capabilities` of the `local` registry entry. -/
def localCapabilities : List String :=
  ["basic_chat", "math", "fast_response", "file_creation"]

/-- `capabilities` of the `openai` registry entry. -/
def openaiCapabilities : List String :=
  ["basic_chat", "code_generation", "reasoning", "summarization",
   "data_analysis", "function_calling", "json_mode", "structured_output",
   "tool_use", "multilingual", "step_by_step_reasoning"]

/-- `capabilities` of the `anthropic` registry entry. -/
def anthropicCapabilities : List String :=
  ["basic_chat", "long_context", "legal_analysis", "reasoning",
   "creative_writing", "scientific_knowledge", "multilingual",
   "image_understanding", "structured_output", "step_by_step_reasoning"]

/-- `max_tokens` of a registry entry (default settings: `lmstudio 4096`,
`openai 128000`, `anthropic 200000`; fallback `4096` for unknown keys as in
`model_registry[k].get("max_tokens", 4096)`). -/
def registryMaxTokens (k : String) : Int :=
  if k == "local" then 4096
  else if k == "openai" then 128000
  else if k == "anthropic" then 200000
  else 4096

/-! #### Feature extraction (`_initialize_feature_extractors`,
`_extract_features`) -/

/-- The extracted feature vector.  The ten `cap*` fields are the
`capability_<name>` entries produced by `_match_capabilities` for the ten
capability regexes of `_compile_patterns`. -/
structure Features where
  length : ℚ
  word_count : ℚ
  sentence_count : ℚ
  question_count : ℚ
  code_presence : ℚ
  code_snippet_count : ℚ
  math_presence : ℚ
  is_instruction : ℚ
  is_analysis : ℚ
  is_question : ℚ
  complexity_terms : ℚ
  avg_word_len : ℚ
  vocab_diversity : DivVal
  capCodeGeneration : ℚ
  capReasoning : ℚ
  capSummarization : ℚ
  capCreativeWriting : ℚ
  capDataAnalysis : ℚ
  capSystemDesign : ℚ
  capLongContext : ℚ
  capFunctionCalling : ℚ
  capLegalAnalysis : ℚ
  capScientificKnowledge : ℚ

/-- Case-insensitive word-bounded search (`re.IGNORECASE` patterns). -/
def searchCI (alts : List String) (p : String) : Bool :=
  searchWordAny (alts.map (fun a => lowerChars a.data)) (lowerChars p.data)

/-- Case-insensitive `findall` count for a capability alternation,
normalised by 5 and capped (`_match_capabilities`). -/
def capScore (alts : List String) (p : String) : ℚ :=
  min 1 ((findallWordCount (alts.map (fun a => lowerChars a.data))
    (lowerChars p.data) : ℚ) / 5)

/-- The fixed list scanned by the `complexity_terms` extractor. -/
def complexityTermList : List String :=
  ["explain", "analyze", "compare", "contrast", "evaluate", "synthesize",
   "examine", "investigate", "discuss", "elaborate"]

/-- `PromptClassifier._extract_features`. -/
def extract_features (p : String) : Features where
  length := min 1 ((p.length : ℚ) / 2000)
  word_count := min 1 ((pySplitCount p : ℚ) / 300)
  sentence_count := min 1 ((p.data.count '.' : ℚ) / 20)
  question_count := min 1 ((p.data.count '?' : ℚ) / 5)
  code_presence := if codeSearch p then 1 else 0
  code_snippet_count := min 1 ((fencedCount p.data : ℚ) / 3)
  math_presence :=
    if ['+', '-', '*', '/', '=', '<', '>'].any (fun c => p.data.contains c)
    then 1 else 0
  is_instruction :=
    if searchCI ["create", "make", "generate", "build", "implement",
      "write", "develop"] p then 1 else 0
  is_analysis :=
    if searchCI ["analyze", "examine", "investigate", "evaluate", "assess",
      "research"] p then 1 else 0
  is_question :=
    if searchCI ["why", "how", "what", "when", "where", "which", "who",
      "whose"] p then 1 else 0
  complexity_terms :=
    min 1 ((complexityTermList.countP
      (fun t => searchWordAny [t.data] (lowerChars p.data)) : ℚ) / 5)
  avg_word_len := avg_word_length p
  vocab_diversity := vocabulary_diversity p
  capCodeGeneration := capScore ["code", "program", "function", "algorithm",
    "class", "method", "library", "api", "module"] p
  capReasoning := capScore ["reason", "logic", "infer", "deduce",
    "conclude", "why", "because", "therefore"] p
  capSummarization := capScore ["summarize", "summary", "overview", "brief",
    "condense", "digest", "synopsis"] p
  capCreativeWriting := capScore ["creative", "story", "fiction",
    "narrative", "poem", "essay", "write", "describe"] p
  capDataAnalysis := capScore ["data", "analysis", "statistics", "trend",
    "metric", "chart", "graph", "analyze"] p
  capSystemDesign := capScore ["design", "system", "architecture",
    "component", "structure", "framework", "diagram"] p
  capLongContext := capScore ["document", "long", "lengthy",
    "comprehensive", "detailed", "extensive", "thorough"] p
  capFunctionCalling := capScore ["api", "function", "call", "invoke",
    "execute", "run", "trigger", "action"] p
  capLegalAnalysis := capScore ["legal", "law", "contract", "agreement",
    "terms", "clause", "provision", "rights", "obligations"] p
  capScientificKnowledge := capScore ["science", "scientific", "research",
    "experiment", "theory", "hypothesis", "formula", "equation"] p

/-- The all-zero feature vector: what `_extract_features` returns when
every extractor yields `0` (for `vocabulary_diversity`, its wordless early
return `0.0`). -/
def zeroFeatures : Features where
  length := 0
  word_count := 0
  sentence_count := 0
  question_count := 0
  code_presence := 0
  code_snippet_count := 0
  math_presence := 0
  is_instruction := 0
  is_analysis := 0
  is_question := 0
  complexity_terms := 0
  avg_word_len := 0
  vocab_diversity := .zero
  capCodeGeneration := 0
  capReasoning := 0
  capSummarization := 0
  capCreativeWriting := 0
  capDataAnalysis := 0
  capSystemDesign := 0
  capLongContext := 0
  capFunctionCalling := 0
  capLegalAnalysis := 0
  capScientificKnowledge := 0

/-! #### Scoring pipeline -/

/-- Keyword hit counts per backend (`_count_keyword_matches`). -/
structure KScores where
  kLocal : Nat
  kOpenai : Nat
  kAnthropic : Nat
deriving DecidableEq, Repr

/-- `len(pattern.findall(prompt))` for one `\b kw \b` `IGNORECASE`
keyword pattern. -/
def keywordCount (kw : String) (p : String) : Nat :=
  findallWordCount [lowerChars kw.data] (lowerChars p.data)

/-- `PromptClassifier._count_keyword_matches`. -/
def count_keyword_matches (p : String) : KScores where
  kLocal := (localKeywords.map (fun kw => keywordCount kw p)).sum
  kOpenai := (openaiKeywords.map (fun kw => keywordCount kw p)).sum
  kAnthropic := (anthropicKeywords.map (fun kw => keywordCount kw p)).sum

/-- Per-backend scores, keyed in registry insertion order
(`local`, `openai`, `anthropic`). -/
structure Scores where
  scoreLocal : ℚ
  scoreOpenai : ℚ
  scoreAnthropic : ℚ
deriving DecidableEq, Repr

/-- The `capability_<name>` feature for the ten pattern-backed capability
names; `none` for capability tags without a regex (for which
`_extract_features` produces no entry and the boost loop skips). -/
def capFeature (f : Features) : String → Option ℚ
  | "code_generation" => some f.capCodeGeneration
  | "reasoning" => some f.capReasoning
  | "summarization" => some f.capSummarization
  | "creative_writing" => some f.capCreativeWriting
  | "data_analysis" => some f.capDataAnalysis
  | "system_design" => some f.capSystemDesign
  | "long_context" => some f.capLongContext
  | "function_calling" => some f.capFunctionCalling
  | "legal_analysis" => some f.capLegalAnalysis
  | "scientific_knowledge" => some f.capScientificKnowledge
  | _ => none

/-- The capability boost loop of `_determine_final_score`: for each
declared capability with a feature entry `> 0`, add `2.0 ×` the feature. -/
def capabilityBoost (caps : List String) (f : Features) : ℚ :=
  caps.foldl
    (fun acc cap =>
      match capFeature f cap with
      | some v => if v > 0 then acc + v * 2 else acc
      | none => acc) 0

/-- `PromptClassifier._determine_final_score`: keyword base scores
(`× 0.5`), capability boosts, the per-backend heuristics, and the final
`max(0.1, ·)` clamp. -/
def determine_final_score (ks : KScores) (f : Features) : Scores :=
  let sL : ℚ := (ks.kLocal : ℚ) * 0.5
  let sO : ℚ := (ks.kOpenai : ℚ) * 0.5
  let sA : ℚ := (ks.kAnthropic : ℚ) * 0.5
  let bL := capabilityBoost localCapabilities f
  let bO := capabilityBoost openaiCapabilities f
  let bA := capabilityBoost anthropicCapabilities f
  let sL := if bL > 0 then sL + bL else sL
  let sO := if bO > 0 then sO + bO else sO
  let sA := if bA > 0 then sA + bA else sA
  -- local heuristics
  let sL := if f.length < 0.2 ∧ f.complexity_terms < 0.3 then sL + 2 else sL
  let sL :=
    if f.math_presence > 0 ∧ f.code_presence = 0 then sL + 1.5 else sL
  let sL :=
    if f.length > 0.3 ∨ f.complexity_terms > 0.4 then
      sL * max 0.1 (1 - f.length - f.complexity_terms)
    else sL
  let sL :=
    if f.code_presence > 0.5 ∨ f.code_snippet_count > 0 then sL * 0.3
    else sL
  -- openai heuristics
  let sO := if f.code_presence > 0 then sO + 3 * f.code_presence else sO
  let sO := if f.is_analysis > 0 then sO + 2 * f.is_analysis else sO
  let sO :=
    if 0.3 < f.complexity_terms ∧ f.complexity_terms < 0.7 then
      sO + 1.5 * f.complexity_terms
    else sO
  let sO := if f.length > 0.8 then sO * 0.9 else sO
  -- anthropic heuristics
  let sA := if f.length > 0.5 then sA + 2 * f.length else sA
  let sA :=
    if f.complexity_terms > 0.6 then sA + 2.5 * f.complexity_terms else sA
  let sA :=
    if f.is_analysis > 0.5 ∧ f.avg_word_len > 0.6 then sA + 2 else sA
  let sA :=
    if f.question_count > 0.5 then sA + 1 * f.question_count else sA
  let sA := if f.code_presence > 0.7 then sA * 0.9 else sA
  ⟨max 0.1 sL, max 0.1 sO, max 0.1 sA⟩

/-- `PromptClassifier._apply_metadata_adjustments`. -/
def apply_metadata_adjustments (s : Scores) (m : Dict) : Scores :=
  let forced : Option String :=
    match dictGet m "model" with
    | some (.vstr k) => if registryKeys.contains k then some k else none
    | _ => none
  match forced with
  | some k =>
      ⟨if k == "local" then 10 else 0.1,
       if k == "openai" then 10 else 0.1,
       if k == "anthropic" then 10 else 0.1⟩
  | none =>
    let s :=
      match dictGet m "priority" with
      | some (.vstr pr) =>
          let pl := lowerStr pr
          -- factors from the registry priority ranks (1 → 3.0, 2 → 1.5,
          -- 3 → 0.7): speed local/openai/anthropic = 1/2/3, quality =
          -- 3/1/1, cost = 1/2/3
          if pl == "speed" then
            ⟨s.scoreLocal * 3, s.scoreOpenai * 1.5, s.scoreAnthropic * 0.7⟩
          else if pl == "quality" then
            ⟨s.scoreLocal * 0.7, s.scoreOpenai * 3, s.scoreAnthropic * 3⟩
          else if pl == "cost" then
            ⟨s.scoreLocal * 3, s.scoreOpenai * 1.5, s.scoreAnthropic * 0.7⟩
          else s
      | _ => s
    let s :=
      match dictGet m "max_tokens" with
      | some (.vint n) =>
          ⟨if n > registryMaxTokens "local" then s.scoreLocal * 0.5
            else s.scoreLocal,
           if n > registryMaxTokens "openai" then s.scoreOpenai * 0.5
            else s.scoreOpenai,
           if n > registryMaxTokens "anthropic" then s.scoreAnthropic * 0.5
            else s.scoreAnthropic⟩
      | _ => s
    let s :=
      match dictGet m "required_capabilities" with
      | some (.vlistStr caps) =>
          caps.foldl
            (fun s cap =>
              ⟨if localCapabilities.contains cap then s.scoreLocal
                else s.scoreLocal * 0.2,
               if openaiCapabilities.contains cap then s.scoreOpenai
                else s.scoreOpenai * 0.2,
               if anthropicCapabilities.contains cap then s.scoreAnthropic
                else s.scoreAnthropic * 0.2⟩) s
      | _ => s
    s

/-! #### Selection and the classification result -/

/-- The `reasoning` blob of a classification: `{"override": True}` on the
metadata-override path, the four diagnostic maps on the rule-based path. -/
inductive Reasoning where
  | override
  | ruleBased (keyword_matches : KScores) (features : Features)
      (model_scores adjusted_scores : Scores)

/-- The `classification_info` dictionary returned by `classify_prompt`. -/
structure ClassificationInfo where
  selected_model : String
  confidence : ℚ
  source : String
  reasoning : Reasoning

/-- `max(adjusted_scores, key=adjusted_scores.get)`: the first key (in
insertion order `local`, `openai`, `anthropic`) attaining the maximum. -/
def selectMax (s : Scores) : String :=
  let m1 := ("local", s.scoreLocal)
  let m2 := if s.scoreOpenai > m1.2 then ("openai", s.scoreOpenai) else m1
  let m3 :=
    if s.scoreAnthropic > m2.2 then ("anthropic", s.scoreAnthropic) else m2
  m3.1

/-- The score of a named backend. -/
def scoreOf (s : Scores) (k : String) : ℚ :=
  if k == "local" then s.scoreLocal
  else if k == "openai" then s.scoreOpenai
  else s.scoreAnthropic

/-- `sum(adjusted_scores.values())`. -/
def totalScore (s : Scores) : ℚ :=
  s.scoreLocal + s.scoreOpenai + s.scoreAnthropic

/-- `all(score == 0 for score in adjusted_scores.values())`. -/
def allZeroScores (s : Scores) : Bool :=
  s.scoreLocal == 0 && s.scoreOpenai == 0 && s.scoreAnthropic == 0

/-- `round(q, 3)` (round half to even, as Python rounds; none of the
concrete values below sits on a tie). -/
def pyRound3 (q : ℚ) : ℚ :=
  let scaled := q * 1000
  let fl : Int := ⌊scaled⌋
  let fr : ℚ := scaled - (fl : ℚ)
  let n : Int :=
    if fr < 1 / 2 then fl
    else if fr > 1 / 2 then fl + 1
    else if fl % 2 = 0 then fl else fl + 1
  (n : ℚ) / 1000

/-- Steps 1–5 of the classification pipeline in `classify_prompt`
(keyword counts, features, scores, metadata adjustments, selection),
i.e. everything after the memo check and the metadata override. -/
def classifyPipeline (p : String) (m : Dict) : String × ClassificationInfo :=
  let ks := count_keyword_matches p
  let f := extract_features p
  let ms := determine_final_score ks f
  let adj := apply_metadata_adjustments ms m
  if allZeroScores adj then
    ("openai",
      ⟨"openai", pyRound3 0.5, "rule_based", .ruleBased ks f ms adj⟩)
  else
    let sel := selectMax adj
    let total := totalScore adj
    let conf := if total > 0 then scoreOf adj sel / total else 0.5
    (sel, ⟨sel, pyRound3 conf, "rule_based", .ruleBased ks f ms adj⟩)

/-! #### The classification memo -/

/-- The classifier memo `self.classification_cache`:
key ↦ (timestamp, (selected model, classification info)). -/
def Memo := List (String × (Int × (String × ClassificationInfo)))

/-- `PromptClassifier._generate_cache_key`: first 100 characters of the
prompt plus, when non-empty, the sorted-keys JSON of the relevant metadata
fields.  (`str(hash(.))` is applied in the source; equal combined strings
give equal keys, the property the memo relies on, so the key is embedded
by the combined string itself.) -/
def generate_cache_key (p : String) (m : Dict) : String :=
  let relevant : Dict :=
    ["priority", "model", "required_capabilities", "max_tokens"].foldl
      (fun acc k =>
        match dictGet m k with
        | some v => List.append acc [(k, v)]
        | none => acc) ([] : List (String × Val))
  p.take 100 ++
    (if !relevant.isEmpty then dumpDictSorted relevant else "")

/-- `PromptClassifier._check_cache` over an explicit memo and clock:
a hit within the 300 s TTL returns the stored result; an expired entry is
deleted. -/
def check_cache (memo : Memo) (now : Int) (key : String) :
    Option (String × ClassificationInfo) × Memo :=
  match List.find? (fun e => e.1 == key) memo with
  | some (_, ts, res) =>
      if now - ts < 300 then (some res, memo)
      else (none, List.filter (fun e => e.1 != key) memo)
  | none => (none, memo)

/-- `self.classification_cache[key] = (now, res)`. -/
def memoInsert (memo : Memo) (key : String)
    (v : Int × (String × ClassificationInfo)) : Memo :=
  if (List.find? (fun e => e.1 == key) memo).isSome then
    List.map (fun e => if e.1 == key then (key, v) else e) memo
  else List.append memo [(key, v)]

/-- The metadata-override test of `classify_prompt`: `metadata["model"]`
when it names a registered backend key (a non-string or unregistered
value falls through, as `requested_model in self.model_registry` is then
false). -/
def overrideKeyOf (m : Dict) : Option String :=
  match dictGet m "model" with
  | some (.vstr k) => if registryKeys.contains k then some k else none
  | _ => none

/-- `PromptClassifier.classify_prompt(prompt, metadata)` over an explicit
memo and clock.  Returns the `(selected_model, classification_info)` pair
and the memo after the call.  On a memo hit the stored info's `source` is
overwritten with `"cache"` (in the returned info and, through aliasing, in
the memoised entry). -/
def classify_prompt (p : String) (m : Dict) (memo : Memo) (now : Int) :
    (String × ClassificationInfo) × Memo :=
  let key := generate_cache_key p m
  match check_cache memo now key with
  | (some (model, info), memo1) =>
      let info := { info with source := "cache" }
      ((model, info),
        List.map (fun e => if e.1 == key then (e.1, (e.2.1, (model, info)))
          else e) memo1)
  | (none, memo1) =>
      match overrideKeyOf m with
      | some k =>
          let info : ClassificationInfo := ⟨k, 1, "metadata_override", .override⟩
          ((k, info), memoInsert memo1 key (now, (k, info)))
      | none =>
          let r := classifyPipeline p m
          (r, memoInsert memo1 key (now, r))

/-- `classify_prompt` with the memo disabled: the metadata override
followed by the classification pipeline, no memo reads or writes.  (This
is the spec's "behavior must be identical with it disabled" comparison
point.) -/
def classify_prompt_nomemo (p : String) (m : Dict) :
    String × ClassificationInfo :=
  match overrideKeyOf m with
  | some k => (k, ⟨k, 1, "metadata_override", .override⟩)
  | none => classifyPipeline p m

/-! ### Router (`src/router.py`) -/

/-- One backend's entry of `self.model_metrics`
(`ModelRouter._initialize_adapters`). -/
structure Metrics where
  requests : Nat
  successes : Nat
  failures : Nat
  avg_latency_ms : ℚ
  total_tokens_processed : Int
  total_tokens_input : Int
  total_tokens_output : Int
  total_cost : ℚ
  last_reset : Int
  timeout_count : Nat
  cache_hit_count : Nat
  stream_requests : Nat

/-- The metrics entry created at adapter initialisation. -/
def initMetrics (now : Int) : Metrics where
  requests := 0
  successes := 0
  failures := 0
  avg_latency_ms := 0
  total_tokens_processed := 0
  total_tokens_input := 0
  total_tokens_output := 0
  total_cost := 0
  last_reset := now
  timeout_count := 0
  cache_hit_count := 0
  stream_requests := 0

/-- `ModelRouter._update_metrics` on a single backend's entry (the body
after the `model_key not in self.model_metrics` guard), with the clock
explicit. -/
def update_metrics (mt : Metrics) (now : Int) (success : Bool)
    (latency_ms : Int) (tokens input_tokens output_tokens : Int) (cost : ℚ)
    (from_cache is_streaming : Bool) : Metrics :=
  let mt := { mt with requests := mt.requests + 1 }
  let mt :=
    if success then { mt with successes := mt.successes + 1 }
    else { mt with failures := mt.failures + 1 }
  let mt :=
    if success ∧ ¬from_cache ∧ latency_ms > 0 then
      let prev_avg := mt.avg_latency_ms
      let prev_count : Int := (mt.successes : Int) - 1
      if prev_count ≤ 0 then { mt with avg_latency_ms := (latency_ms : ℚ) }
      else
        { mt with
          avg_latency_ms :=
            (prev_avg * (prev_count : ℚ) + (latency_ms : ℚ)) /
              ((prev_count : ℚ) + 1) }
    else mt
  let mt :=
    if tokens > 0 then
      { mt with total_tokens_processed := mt.total_tokens_processed + tokens }
    else mt
  let mt :=
    if input_tokens > 0 then
      { mt with total_tokens_input := mt.total_tokens_input + input_tokens }
    else mt
  let mt :=
    if output_tokens > 0 then
      { mt with total_tokens_output := mt.total_tokens_output + output_tokens }
    else mt
  let mt :=
    if cost > 0 then { mt with total_cost := mt.total_cost + cost } else mt
  let mt :=
    if from_cache then { mt with cache_hit_count := mt.cache_hit_count + 1 }
    else mt
  let mt :=
    if is_streaming then
      { mt with stream_requests := mt.stream_requests + 1 }
    else mt
  if now - mt.last_reset > 86400 then
    { mt with last_reset := now, avg_latency_ms := 0 }
  else mt

/-- `self.model_metrics` as a table, with `_update_metrics`'s early return
when the key is missing. -/
def MetricsTable := List (String × Metrics)

/-- `_update_metrics(model_key, ...)` over the table. -/
def update_metrics_table (tbl : MetricsTable) (key : String) (now : Int)
    (success : Bool) (latency_ms : Int)
    (tokens input_tokens output_tokens : Int) (cost : ℚ)
    (from_cache is_streaming : Bool) : MetricsTable :=
  List.map
    (fun e =>
      if e.1 == key then
        (e.1, update_metrics e.2 now success latency_ms tokens input_tokens
          output_tokens cost from_cache is_streaming)
      else e) tbl

/-- The metrics table the router builds for the default registry. -/
def initTable (now : Int) : MetricsTable :=
  registryKeys.map (fun k => (k, initMetrics now))

/-- The metric updates `route_prompt` performs for a unary dispatch that
succeeds (`src/router.py` lines 570–608): the pre-dispatch
`_update_metrics(model_key, False, 0, 0)` ("count the request"), then the
post-success `_update_metrics(model_key, True, latency, ...)`. -/
def route_prompt_metrics_success (tbl : MetricsTable) (key : String)
    (now : Int) (latency_ms tokens input_tokens output_tokens : Int)
    (cost : ℚ) : MetricsTable :=
  let tbl := update_metrics_table tbl key now false 0 0 0 0 0 false false
  update_metrics_table tbl key now true latency_ms tokens input_tokens
    output_tokens cost false false

/-- The metric update `route_prompt` performs on a cache hit
(`src/router.py` lines 470–479): one `_update_metrics(model_key, True,
cache_latency_ms, tokens, from_cache=True)`. -/
def route_prompt_metrics_cache_hit (tbl : MetricsTable) (key : String)
    (now : Int) (cache_latency_ms tokens : Int) : MetricsTable :=
  update_metrics_table tbl key now true cache_latency_ms tokens 0 0 0
    true false

/-- `FallbackSettings.fallback_order` (default configuration). -/
def fallbackConfigOrder : List (String × List String) :=
  [("local", ["openai", "anthropic"]),
   ("openai", ["anthropic", "local"]),
   ("anthropic", ["openai", "local"])]

/-- `ModelRouter._get_fallback_model_order`. -/
def get_fallback_model_order (enabled : Bool)
    (fallbackOrder : List (String × List String)) (adapters : List String)
    (primary : String) : List String :=
  let configured := List.find? (fun e => e.1 == primary) fallbackOrder
  let fallback_models :=
    if enabled && configured.isSome then
      (configured.map Prod.snd).getD []
    else
      let d := ["openai", "anthropic", "local"]
      if d.contains primary then
        List.filter (fun x => x != primary) d ++ [primary]
      else d
  List.filter (fun x => adapters.contains x) fallback_models

/-- The health gate of `route_prompt` (`src/router.py` lines 531–541).
`health` is `self.model_health` restricted to each backend's `status`
string.  Transcribed statement by statement: when the chosen backend's
status is `"unhealthy"`, the first non-unhealthy backend of the fallback
order is substituted; the source assigns `model_key = alt_model` *before*
`classification_info["original_model"] = model_key`, so the recorded
`original_model` is the substitute. -/
def health_gate (health : List (String × String)) (enabled : Bool)
    (fallbackOrder : List (String × List String)) (adapters : List String)
    (model_key : String) (info : Dict) : String × Dict :=
  let status := (List.find? (fun e => e.1 == model_key) health).map Prod.snd
  if status == some "unhealthy" then
    let alt :=
      List.find?
        (fun alt =>
          ((List.find? (fun e => e.1 == alt) health).map Prod.snd).isSome &&
            !(((List.find? (fun e => e.1 == alt) health).map Prod.snd) ==
              some "unhealthy"))
        (get_fallback_model_order enabled fallbackOrder adapters model_key)
    match alt with
    | some altModel =>
        let model_key := altModel
        let info := dictInsert info "health_fallback" (.vbool true)
        let info := dictInsert info "original_model" (.vstr model_key)
        (model_key, info)
    | none => (model_key, info)
  else (model_key, info)

/-! ### Adapter contract (`src/models/base_adapter.py`) -/

/-- `ModelAdapter.measure_latency`: the wrapper every adapter's
`generate_response` is decorated with.  The wrapped body either returns an
envelope (`Except.ok`) or raises (`Except.error` with the exception
message `str(e)`); `elapsed_ms` is the measured
`int((time.time() - start_time) * 1000)`. -/
def measure_latency (provider model_id : String)
    (body : Except String Dict) (elapsed_ms : Int) : Dict :=
  match body with
  | .ok result => dictInsert result "latency_ms" (.vint elapsed_ms)
  | .error e =>
      [("response", .vstr ("Error: " ++ e)),
       ("error", .vbool true),
       ("error_details", .vstr e),
       ("latency_ms", .vint elapsed_ms),
       ("model_used", .vstr provider),
       ("model_id", .vstr model_id)]

/-! ### Dictionary lemmas -/

theorem dictGet_erase_ne (d : List (String × Val)) (k k' : String)
    (h : k' ≠ k) : dictGet (dictErase d k) k' = dictGet d k' := by
  induction d with
  | nil => rfl
  | cons p rest ih =>
    cases hb : (p.1 == k) with
    | true =>
      have h2 : (p.1 == k') = false := by
        rw [beq_eq_false_iff_ne, eq_of_beq hb]
        exact Ne.symm h
      simpa [dictErase, dictGet, List.filter_cons, List.find?_cons, bne, hb,
        h2] using ih
    | false =>
      cases hb' : (p.1 == k') with
      | true =>
        simp [dictErase, dictGet, List.filter_cons, List.find?_cons, bne,
          hb, hb']
      | false =>
        simpa [dictErase, dictGet, List.filter_cons, List.find?_cons, bne,
          hb, hb'] using ih

theorem dictGet_erase_self (d : List (String × Val)) (k : String) :
    dictGet (dictErase d k) k = none := by
  induction d with
  | nil => rfl
  | cons p rest ih =>
    cases hb : (p.1 == k) with
    | true =>
      simpa [dictErase, dictGet, List.filter_cons, bne, hb] using ih
    | false =>
      simpa [dictErase, dictGet, List.filter_cons, List.find?_cons, bne,
        hb] using ih

theorem find?_eq_none_of_dictGet_eq_none (d : List (String × Val))
    (k : String) (h : dictGet d k = none) :
    List.find? (fun p => p.1 == k) d = none := by
  cases hf : List.find? (fun p => p.1 == k) d with
  | none => rfl
  | some x => simp [dictGet, hf] at h

theorem find?_dictReplace_self (l : List (String × Val)) (k : String)
    (v : Val)
    (hc : (List.find? (fun p => p.1 == k) l).isSome = true) :
    List.find? (fun p => p.1 == k) (dictReplace l k v) = some (k, v) := by
  induction l with
  | nil => simp at hc
  | cons p rest ih =>
    cases hb : (p.1 == k) with
    | true =>
      show List.find? (fun p => p.1 == k)
        (match p.1 == k with
          | true => (k, v) :: dictReplace rest k v
          | false => p :: dictReplace rest k v) = some (k, v)
      rw [hb]
      show (match (k == k : Bool) with
        | true => some (k, v)
        | false => List.find? (fun p => p.1 == k) (dictReplace rest k v)) =
        some (k, v)
      rw [beq_self_eq_true]
    | false =>
      show List.find? (fun p => p.1 == k)
        (match p.1 == k with
          | true => (k, v) :: dictReplace rest k v
          | false => p :: dictReplace rest k v) = some (k, v)
      rw [hb]
      show (match (p.1 == k : Bool) with
        | true => some p
        | false => List.find? (fun p => p.1 == k) (dictReplace rest k v)) =
        some (k, v)
      rw [hb]
      rw [List.find?_cons, hb] at hc
      exact ih hc

theorem find?_dictReplace_ne (l : List (String × Val)) (k k' : String)
    (v : Val) (h : k' ≠ k) :
    List.find? (fun p => p.1 == k') (dictReplace l k v) =
      List.find? (fun p => p.1 == k') l := by
  induction l with
  | nil => rfl
  | cons p rest ih =>
    have hkk : (k == k') = false := by
      rw [beq_eq_false_iff_ne]
      exact Ne.symm h
    cases hb : (p.1 == k) with
    | true =>
      have hp : (p.1 == k') = false := by
        rw [beq_eq_false_iff_ne, eq_of_beq hb]
        exact Ne.symm h
      show List.find? (fun p => p.1 == k')
        (match p.1 == k with
          | true => (k, v) :: dictReplace rest k v
          | false => p :: dictReplace rest k v) = _
      rw [hb]
      rw [List.find?_cons, List.find?_cons, hkk, hp]
      exact ih
    | false =>
      show List.find? (fun p => p.1 == k')
        (match p.1 == k with
          | true => (k, v) :: dictReplace rest k v
          | false => p :: dictReplace rest k v) = _
      rw [hb]
      rw [List.find?_cons, List.find?_cons]
      cases hb' : (p.1 == k') with
      | true => rfl
      | false => exact ih

theorem dictGet_insert_self (d : List (String × Val)) (k : String)
    (v : Val) : dictGet (dictInsert d k v) k = some v := by
  by_cases hc : dictContains d k
  · have hc' : (List.find? (fun p => p.1 == k) d).isSome = true := by
      simpa [dictContains, dictGet] using hc
    simp [dictInsert, hc, dictGet, find?_dictReplace_self d k v hc']
  · have hn : dictGet d k = none := by
      simp only [dictContains, Option.isSome_iff_ne_none, ne_eq,
        not_not] at hc
      exact hc
    simp [dictInsert, hc, dictGet, List.find?_append,
      find?_eq_none_of_dictGet_eq_none d k hn]

theorem dictGet_insert_ne (d : List (String × Val)) (k k' : String)
    (v : Val) (h : k' ≠ k) :
    dictGet (dictInsert d k v) k' = dictGet d k' := by
  have hkk : (k == k') = false := by
    rw [beq_eq_false_iff_ne]
    exact Ne.symm h
  by_cases hc : dictContains d k
  · simp [dictInsert, hc, dictGet, find?_dictReplace_ne d k k' v h]
  · have hcf : dictContains d k = false := by
      cases hx : dictContains d k
      · rfl
      · exact absurd hx hc
    have hone : List.find? (fun p => p.1 == k') [(k, v)] = none := by
      show (match (k == k' : Bool) with
        | true => some ((k, v) : String × Val)
        | false => List.find? (fun p => p.1 == k') []) = none
      rw [hkk]
      rfl
    show Option.map Prod.snd
      (List.find? (fun p => p.1 == k')
        (if dictContains d k = true then dictReplace d k v
          else d ++ [(k, v)])) = _
    rw [hcf, if_neg (by simp), List.find?_append, hone, Option.or_none]
    rfl

theorem dictGetD_erase_ne (d : List (String × Val)) (k k' : String)
    (dflt : Val) (h : k' ≠ k) :
    dictGetD (dictErase d k) k' dflt = dictGetD d k' dflt := by
  simp [dictGetD, dictGet_erase_ne d k k' h]

/-- Replacement preserves the key list. -/
theorem dictKeys_dictReplace (d : List (String × Val)) (k : String)
    (v : Val) : dictKeys (dictReplace d k v) = dictKeys d := by
  induction d with
  | nil => rfl
  | cons p rest ih =>
    cases hb : (p.1 == k) with
    | true =>
      show dictKeys
        (match p.1 == k with
          | true => (k, v) :: dictReplace rest k v
          | false => p :: dictReplace rest k v) = _
      rw [hb]
      show k :: dictKeys (dictReplace rest k v) = p.1 :: dictKeys rest
      rw [ih, eq_of_beq hb]
    | false =>
      show dictKeys
        (match p.1 == k with
          | true => (k, v) :: dictReplace rest k v
          | false => p :: dictReplace rest k v) = _
      rw [hb]
      show p.1 :: dictKeys (dictReplace rest k v) = p.1 :: dictKeys rest
      rw [ih]

/-- Keys are preserved (as a list) by in-place replacement and extended by
one on fresh insertion. -/
theorem dictKeys_insert (d : List (String × Val)) (k : String) (v : Val) :
    dictKeys (dictInsert d k v) =
      if dictContains d k then dictKeys d
      else List.append (dictKeys d) [k] := by
  by_cases hc : dictContains d k
  · simp [dictInsert, hc, dictKeys_dictReplace]
  · simp [dictInsert, hc, dictKeys]

/-- Membership in the key list is having a binding. -/
theorem mem_dictKeys_iff_isSome (d : List (String × Val)) (k : String) :
    k ∈ dictKeys d ↔ (dictGet d k).isSome := by
  induction d with
  | nil => simp [dictKeys, dictGet]
  | cons p rest ih =>
    cases hb : (p.1 == k) with
    | true => simp [dictKeys, dictGet, List.find?_cons, hb, eq_of_beq hb]
    | false =>
      have hne : ¬ k = p.1 := by
        intro hh
        rw [hh] at hb
        simp at hb
      simp only [dictKeys, List.map_cons, List.mem_cons, dictGet,
        List.find?_cons, hb]
      constructor
      · rintro (hh | hh)
        · exact absurd hh hne
        · exact ih.mp (by simpa [dictKeys] using hh)
      · intro hh
        exact Or.inr (by simpa [dictKeys] using ih.mpr hh)

/-- `dictGet` skips a non-matching head. -/
theorem dictGet_cons_ne (p : String × Val) (rest : List (String × Val))
    (k : String) (hb : (p.1 == k) = false) :
    dictGet (p :: rest) k = dictGet rest k := by
  show Option.map Prod.snd (List.find? (fun q => q.1 == k) (p :: rest)) = _
  rw [List.find?_cons, hb]
  rfl

/-- `dictGet` takes a matching head. -/
theorem dictGet_cons_eq (p : String × Val) (rest : List (String × Val))
    (k : String) (hb : (p.1 == k) = true) :
    dictGet (p :: rest) k = some p.2 := by
  show Option.map Prod.snd (List.find? (fun q => q.1 == k) (p :: rest)) = _
  rw [List.find?_cons, hb]
  rfl

/-- `dictGet` through a key filter. -/
theorem dictGet_filter (d : List (String × Val)) (flds : List String)
    (k : String) :
    dictGet (List.filter (fun p => flds.contains p.1) d) k =
      if flds.contains k then dictGet d k else none := by
  induction d with
  | nil => cases hf : flds.contains k <;> simp [dictGet, hf]
  | cons p rest ih =>
    rw [List.filter_cons]
    cases hb : (p.1 == k) with
    | true =>
      have hpk : p.1 = k := eq_of_beq hb
      cases hf : flds.contains p.1 with
      | true =>
        rw [if_pos rfl, dictGet_cons_eq p _ k hb,
          if_pos (show flds.contains k = true from hpk ▸ hf),
          dictGet_cons_eq p rest k hb]
      | false =>
        have hfk : flds.contains k = false := hpk ▸ hf
        rw [if_neg (by simp), ih, hfk]
        simp
    | false =>
      cases hf : flds.contains p.1 with
      | true =>
        rw [if_pos rfl, dictGet_cons_ne p _ k hb, ih]
        cases hfk : flds.contains k with
        | true => rw [if_pos rfl, if_pos rfl, dictGet_cons_ne p rest k hb]
        | false => rw [if_neg (by simp), if_neg (by simp)]
      | false =>
        rw [if_neg (by simp), ih]
        cases hfk : flds.contains k with
        | true => rw [if_pos rfl, if_pos rfl, dictGet_cons_ne p rest k hb]
        | false => rw [if_neg (by simp), if_neg (by simp)]

/-! ### Store lemmas -/

theorem find?_entriesReplace_self (l : List (String × (Val × Dict)))
    (k : String) (v : Val × Dict)
    (hc : (List.find? (fun p => p.1 == k) l).isSome = true) :
    List.find? (fun p => p.1 == k) (entriesReplace l k v) = some (k, v) := by
  induction l with
  | nil => simp at hc
  | cons p rest ih =>
    cases hb : (p.1 == k) with
    | true =>
      show List.find? (fun p => p.1 == k)
        (match p.1 == k with
          | true => (k, v) :: entriesReplace rest k v
          | false => p :: entriesReplace rest k v) = some (k, v)
      rw [hb]
      show (match (k == k : Bool) with
        | true => some (k, v)
        | false => List.find? (fun p => p.1 == k) (entriesReplace rest k v)) =
        some (k, v)
      rw [beq_self_eq_true]
    | false =>
      show List.find? (fun p => p.1 == k)
        (match p.1 == k with
          | true => (k, v) :: entriesReplace rest k v
          | false => p :: entriesReplace rest k v) = some (k, v)
      rw [hb]
      show (match (p.1 == k : Bool) with
        | true => some p
        | false => List.find? (fun p => p.1 == k) (entriesReplace rest k v)) =
        some (k, v)
      rw [hb]
      rw [List.find?_cons, hb] at hc
      exact ih hc

theorem mem_entriesReplace (l : List (String × (Val × Dict))) (k : String)
    (v : Val × Dict) :
    ∀ e ∈ entriesReplace l k v, e ∈ l ∨ e = (k, v) := by
  induction l with
  | nil => intro e he; exact absurd he (by simp [entriesReplace])
  | cons p rest ih =>
    intro e he
    cases hb : (p.1 == k) with
    | true =>
      rw [show entriesReplace (p :: rest) k v =
        (match p.1 == k with
          | true => (k, v) :: entriesReplace rest k v
          | false => p :: entriesReplace rest k v) from rfl, hb] at he
      rcases List.mem_cons.mp he with he | he
      · exact Or.inr he
      · rcases ih e he with hh | hh
        · exact Or.inl (List.mem_cons_of_mem p hh)
        · exact Or.inr hh
    | false =>
      rw [show entriesReplace (p :: rest) k v =
        (match p.1 == k with
          | true => (k, v) :: entriesReplace rest k v
          | false => p :: entriesReplace rest k v) from rfl, hb] at he
      rcases List.mem_cons.mp he with he | he
      · exact Or.inl (he ▸ List.mem_cons_self p rest)
      · rcases ih e he with hh | hh
        · exact Or.inl (List.mem_cons_of_mem p hh)
        · exact Or.inr hh

/-- The entries after a `SETEX` are the old entries with the new binding. -/
theorem mem_storeSetex (st : CacheStore) (key : String) (ttl : Val)
    (v : Dict) :
    ∀ e ∈ (storeSetex st key ttl v).entries,
      e ∈ st.entries ∨ e = (key, (ttl, v)) := by
  intro e he
  by_cases hc : (List.find? (fun p => p.1 == key) st.entries).isSome
  · simp only [storeSetex, hc, if_true] at he
    exact mem_entriesReplace st.entries key (ttl, v) e he
  · simp only [storeSetex, hc, if_false] at he
    rcases List.mem_append.mp he with he | he
    · exact Or.inl he
    · exact Or.inr (by simpa using he)

/-- `SETEX` makes the written binding the one found at `key`. -/
theorem storeFind_setex_self (st : CacheStore) (key : String) (ttl : Val)
    (v : Dict) :
    storeFind (storeSetex st key ttl v) key = some (ttl, v) := by
  by_cases hc : (List.find? (fun p => p.1 == key) st.entries).isSome
  · simp [storeFind, storeSetex, hc, find?_entriesReplace_self st.entries key (ttl, v) hc]
  · have hn : List.find? (fun p => p.1 == key) st.entries = none := by
      cases hf : List.find? (fun p => p.1 == key) st.entries
      · rfl
      · exact absurd (by simp [hf]) hc
    simp [storeFind, storeSetex, hc, List.find?_append, hn]

/-- `SADD` does not touch the entries. -/
theorem storeFind_sadd (st : CacheStore) (setKey member key : String) :
    storeFind (storeSadd st setKey member) key = storeFind st key := rfl

theorem entries_sadd (st : CacheStore) (setKey member : String) :
    (storeSadd st setKey member).entries = st.entries := rfl

/-! ### Cache.set reduction helpers -/

/-- The provenance stripping (`for field in ["from_cache", "cache_key",
"cache_latency_ms"]: del response_to_cache[field]`) applied to a value. -/
def stripProvenance (env : Dict) : Dict :=
  dictErase (dictErase (dictErase env "from_cache") "cache_key")
    "cache_latency_ms"

theorem stripProvenance_get_ne (env : Dict) (k : String)
    (h1 : k ≠ "from_cache") (h2 : k ≠ "cache_key")
    (h3 : k ≠ "cache_latency_ms") :
    dictGet (stripProvenance env) k = dictGet env k := by
  unfold stripProvenance
  rw [dictGet_erase_ne _ _ _ h3, dictGet_erase_ne _ _ _ h2,
    dictGet_erase_ne _ _ _ h1]

/-- The refusal guard of `Cache.set`, evaluated on the stripped copy. -/
def setRefuses (env : Dict) : Bool :=
  (dictGetD (stripProvenance env) "error" (.vbool false)).truthy ||
    (dictGetD (stripProvenance env) "fallback" (.vbool false)).truthy

theorem setRefuses_eq (env : Dict) :
    setRefuses env =
      ((dictGetD env "error" (.vbool false)).truthy ||
        (dictGetD env "fallback" (.vbool false)).truthy) := by
  unfold setRefuses
  unfold stripProvenance
  rw [dictGetD_erase_ne _ _ _ _ (by decide), dictGetD_erase_ne _ _ _ _ (by decide),
    dictGetD_erase_ne _ _ _ _ (by decide), dictGetD_erase_ne _ _ _ _ (by decide),
    dictGetD_erase_ne _ _ _ _ (by decide), dictGetD_erase_ne _ _ _ _ (by decide)]

/-- `Cache.set` when the connection is down: no-op returning `False`. -/
theorem cache_set_disconnected (c : CacheInst) (st : CacheStore)
    (prompt : String) (env m : Dict) (hc : c.connOK = false) :
    Cache.set c st prompt env m = (st, false) := by
  unfold Cache.set Cache.setH
  rw [hc]
  rfl

/-- The store written by the success path of `Cache.set`: `SETEX` of the
stripped copy under the fingerprint, then `SADD` into the model index when
`model_used` is truthy. -/
def setWrites (c : CacheInst) (st : CacheStore) (prompt : String)
    (env m : Dict) : CacheStore :=
  let key := Cache.generate_key c prompt m
  let ttl : Val :=
    if !List.isEmpty m then dictGetD m "cache_ttl" (Val.vint c.ttl)
    else Val.vint c.ttl
  let st1 := storeSetex st key ttl (stripProvenance env)
  match dictGet (stripProvenance env) "model_used" with
  | some mu =>
      if mu.truthy then
        storeSadd st1 (c.pref ++ "models:" ++ mu.pyStr) key
      else st1
  | none => st1

/-- `Cache.set` with a live connection, in guard-branch form: definitional
repackaging of `setH` on the one-object heap. -/
theorem cache_set_connected (c : CacheInst) (st : CacheStore)
    (prompt : String) (env m : Dict) (hc : c.connOK = true) :
    Cache.set c st prompt env m =
      (if setRefuses env then (st, false)
       else (setWrites c st prompt env m, true)) := by
  unfold Cache.set Cache.setH
  rw [hc]
  show (((if setRefuses env = true then
      (⟨st, [env, stripProvenance env], false⟩ : Cache.SetResult)
    else
      ⟨setWrites c st prompt env m, [env, stripProvenance env], true⟩)).store,
    ((if setRefuses env = true then
      (⟨st, [env, stripProvenance env], false⟩ : Cache.SetResult)
    else
      ⟨setWrites c st prompt env m, [env, stripProvenance env],
        true⟩)).ok) = _
  cases hguard : setRefuses env with
  | true => rfl
  | false => rfl

/-- `Cache.set` on an error/fallback envelope: no store write, returns
`False` (both with and without a connection). -/
theorem cache_set_refused (c : CacheInst) (st : CacheStore)
    (prompt : String) (env m : Dict) (hbad : setRefuses env = true) :
    Cache.set c st prompt env m = (st, false) := by
  cases hc : c.connOK with
  | false => exact cache_set_disconnected c st prompt env m hc
  | true =>
    rw [cache_set_connected c st prompt env m hc, hbad]
    rfl

/-- `Cache.set` on a storable envelope with a live connection succeeds. -/
theorem cache_set_written (c : CacheInst) (st : CacheStore)
    (prompt : String) (env m : Dict) (hc : c.connOK = true)
    (hgood : setRefuses env = false) :
    Cache.set c st prompt env m = (setWrites c st prompt env m, true) := by
  rw [cache_set_connected c st prompt env m hc, hgood]
  rfl

/-- `Cache.get` when the connection is down. -/
theorem cache_get_disconnected (c : CacheInst) (st : CacheStore)
    (prompt : String) (m : Dict) (hc : c.connOK = false) :
    Cache.get c st prompt m = none := by
  unfold Cache.get
  rw [hc]
  rfl

/-- `Cache.get` with a connection: hit or miss on the fingerprint. -/
theorem cache_get_connected (c : CacheInst) (st : CacheStore)
    (prompt : String) (m : Dict) (hc : c.connOK = true) :
    Cache.get c st prompt m =
      (match storeFind st (Cache.generate_key c prompt m) with
       | some (_, cached) =>
           some (dictInsert (dictInsert cached "from_cache" (.vbool true))
             "cache_key" (.vstr (Cache.generate_key c prompt m)))
       | none => none) := by
  unfold Cache.get
  rw [hc]
  rfl

/-- Reading an untouched heap cell through a write at another index. -/
theorem heapRead_write_ne (h : Cache.Heap) (i j : Nat) (f : Dict → Dict)
    (hne : i ≠ j) :
    Cache.heapRead (Cache.heapWrite h i f) j = Cache.heapRead h j := by
  show List.getD (List.set h i (f (Cache.heapRead h i))) j ({} : Dict) = _
  rw [List.getD_eq_getElem?_getD, List.getElem?_set_ne hne,
    ← List.getD_eq_getElem?_getD]
  rfl

/-- Reading a pre-existing heap cell through an allocation. -/
theorem heapRead_alloc_lt (h : Cache.Heap) (d : Dict) (j : Nat)
    (hj : j < h.length) :
    Cache.heapRead (Cache.heapAlloc h d) j = Cache.heapRead h j := by
  show List.getD (List.append h [d]) j ({} : Dict) =
    List.getD h j ({} : Dict)
  rw [List.append_eq, List.getD_eq_getElem?_getD, List.getElem?_append,
    if_pos hj, ← List.getD_eq_getElem?_getD]

/-! ### The claims -/

/-- C9.  An adapter `generate` call never propagates an exception across
the contract: when the wrapped body raises with message `e`, the
`measure_latency` wrapper returns an envelope with `error=True`,
`error_details = e`, the measured wall-clock `latency_ms`, and a
human-readable `response` — for every provider, model id, message and
elapsed time. -/
theorem measure_latency_error_envelope (provider model_id e : String)
    (elapsed : Int) :
    dictGet (measure_latency provider model_id (.error e) elapsed)
        "error" = some (.vbool true) ∧
    dictGet (measure_latency provider model_id (.error e) elapsed)
        "error_details" = some (.vstr e) ∧
    dictGet (measure_latency provider model_id (.error e) elapsed)
        "latency_ms" = some (.vint elapsed) ∧
    dictGet (measure_latency provider model_id (.error e) elapsed)
        "response" = some (.vstr ("Error: " ++ e)) ∧
    dictGet (measure_latency provider model_id (.error e) elapsed)
        "model_used" = some (.vstr provider) := by
  refine ⟨rfl, rfl, rfl, rfl, rfl⟩

unseal Rat.ofScientific Rat.mul Rat.inv Rat.add Rat.sub in
set_option maxRecDepth 8000 in
/-- C5 (code bug).  One successful unary dispatch, from a fresh metrics
table: `route_prompt` first calls `_update_metrics(model_key, False, 0, 0)`
("count the request", `src/router.py` line 572) and then
`_update_metrics(model_key, True, ...)` on success (line 600), so the
backend ends with `requests = 2`, `successes = 1` and `failures = 1` —
not `requests = 1` with exactly one terminal-outcome counter. -/
theorem route_prompt_metrics_success_double_counts :
    (List.find? (fun e => e.1 == "openai")
        (route_prompt_metrics_success (initTable 0) "openai" 0 100 10 5 5 0)).map
        (fun e => (e.2.requests, e.2.successes, e.2.failures)) =
      some (2, 1, 1) ∧
    (List.find? (fun e => e.1 == "openai")
        (route_prompt_metrics_cache_hit (initTable 0) "openai" 0 3 10)).map
        (fun e => (e.2.requests, e.2.successes, e.2.failures)) =
      some (1, 1, 0) := by
  constructor <;> rfl

/-- C8 (code bug).  The health gate with `anthropic` chosen and unhealthy,
`openai` healthy: the router substitutes `openai` and sets
`health_fallback=True`, but records `original_model = "openai"` (the
substitute) instead of the originally chosen `"anthropic"`, because
`src/router.py` line 538 reassigns `model_key` before line 540 reads it. -/
theorem health_gate_original_model_is_substitute :
    health_gate
        [("local", "healthy"), ("openai", "healthy"),
         ("anthropic", "unhealthy")]
        true fallbackConfigOrder registryKeys "anthropic" [] =
      ("openai",
        [("health_fallback", .vbool true),
         ("original_model", .vstr "openai")]) ∧
    dictGet
        (health_gate
          [("local", "healthy"), ("openai", "healthy"),
           ("anthropic", "unhealthy")]
          true fallbackConfigOrder registryKeys "anthropic" []).2
        "original_model" ≠ some (.vstr "anthropic") := by
  constructor
  · rfl
  · decide

/-- C10.  `Cache.set` leaves the caller's envelope object unmodified: the
provenance stripping (`del` of `from_cache`, `cache_key`,
`cache_latency_ms`) happens on `response.copy()` only, so the heap cell
holding the `response` argument reads the same after the call as before,
whatever the store, connection state, prompt and metadata. -/
theorem cache_set_preserves_caller_envelope (c : CacheInst)
    (st : CacheStore) (heap : Cache.Heap) (respRef : Nat) (prompt : String)
    (m : Dict) (hr : respRef < heap.length) :
    Cache.heapRead (Cache.setH c st heap respRef prompt m).heap respRef =
      Cache.heapRead heap respRef := by
  have hne : heap.length ≠ respRef := by omega
  cases hc : c.connOK with
  | false =>
    unfold Cache.setH
    rw [hc]
    rfl
  | true =>
    unfold Cache.setH
    rw [hc]
    simp only []
    split
    · rfl
    · split
      · rw [heapRead_write_ne _ _ _ _ hne, heapRead_write_ne _ _ _ _ hne,
          heapRead_write_ne _ _ _ _ hne, heapRead_alloc_lt _ _ _ hr]
      · rw [heapRead_write_ne _ _ _ _ hne, heapRead_write_ne _ _ _ _ hne,
          heapRead_write_ne _ _ _ _ hne, heapRead_alloc_lt _ _ _ hr]

/-- The store invariant of C1: every stored envelope has falsy `error`
and `fallback`. -/
def GoodStore (st : CacheStore) : Prop :=
  ∀ e ∈ st.entries,
    (dictGetD e.2.2 "error" (.vbool false)).truthy = false ∧
    (dictGetD e.2.2 "fallback" (.vbool false)).truthy = false

/-- The entries written by the success path are those of the `SETEX`:
the `SADD` touches only the model index. -/
theorem setWrites_entries (c : CacheInst) (st : CacheStore)
    (prompt : String) (env m : Dict) :
    (setWrites c st prompt env m).entries =
      (storeSetex st (Cache.generate_key c prompt m)
        (if !List.isEmpty m then dictGetD m "cache_ttl" (Val.vint c.ttl)
          else Val.vint c.ttl)
        (stripProvenance env)).entries := by
  unfold setWrites
  cases dictGet (stripProvenance env) "model_used" with
  | none => rfl
  | some mu =>
    show (if mu.truthy = true then
        storeSadd (storeSetex st (Cache.generate_key c prompt m)
          (if !List.isEmpty m then dictGetD m "cache_ttl" (Val.vint c.ttl)
            else Val.vint c.ttl) (stripProvenance env))
          (c.pref ++ "models:" ++ mu.pyStr) (Cache.generate_key c prompt m)
      else storeSetex st (Cache.generate_key c prompt m)
        (if !List.isEmpty m then dictGetD m "cache_ttl" (Val.vint c.ttl)
          else Val.vint c.ttl) (stripProvenance env)).entries = _
    cases htr : mu.truthy with
    | true => exact entries_sadd _ _ _
    | false => rfl

theorem storeFind_eq_of_entries (st st' : CacheStore)
    (h : st.entries = st'.entries) (k : String) :
    storeFind st k = storeFind st' k := by
  unfold storeFind
  rw [h]

/-- C1.  (a) For an envelope with truthy `error` or `fallback`,
`Cache.set` is a no-op returning `False`; (b) hence a subsequent
`Cache.get` on a store with no binding for the fingerprint returns
absent; (c) `Cache.set` preserves the invariant that the cache holds no
envelope with truthy `error` or `fallback` — so the cache never contains
one. -/
theorem cache_never_stores_error_or_fallback (c : CacheInst)
    (st : CacheStore) (prompt : String) (m env : Dict)
    (hbad : (dictGetD env "error" (.vbool false)).truthy = true ∨
      (dictGetD env "fallback" (.vbool false)).truthy = true) :
    Cache.set c st prompt env m = (st, false) ∧
    (storeFind st (Cache.generate_key c prompt m) = none →
      Cache.get c (Cache.set c st prompt env m).1 prompt m = none) ∧
    (∀ env2 : Dict, GoodStore st → GoodStore (Cache.set c st prompt env2 m).1) := by
  have hbad' : setRefuses env = true := by
    rw [setRefuses_eq]
    rcases hbad with h | h <;> simp [h]
  have hset := cache_set_refused c st prompt env m hbad'
  refine ⟨hset, ?_, ?_⟩
  · intro hfind
    rw [hset]
    cases hc : c.connOK with
    | false => exact cache_get_disconnected c st prompt m hc
    | true =>
      rw [cache_get_connected c st prompt m hc, hfind]
  · intro env2 hgood
    cases hc : c.connOK with
    | false =>
      rw [cache_set_disconnected c st prompt env2 m hc]
      exact hgood
    | true =>
      cases hguard : setRefuses env2 with
      | true =>
        rw [cache_set_refused c st prompt env2 m hguard]
        exact hgood
      | false =>
        rw [cache_set_written c st prompt env2 m hc hguard]
        intro e he
        rw [show (setWrites c st prompt env2 m, true).1 =
          setWrites c st prompt env2 m from rfl, setWrites_entries] at he
        rcases mem_storeSetex _ _ _ _ e he with hmem | hmem
        · exact hgood e hmem
        · subst hmem
          unfold setRefuses at hguard
          exact Bool.or_eq_false_iff.mp hguard

/-- A concrete cache instance for witnesses: default prefix, default TTL,
the hash parameter instantiated, connection up. -/
def cWitness : CacheInst :=
  ⟨"neuroroute:", 600, fun s => s, true⟩

/-- C1 witness: a concrete error envelope is refused, and the empty store
stays empty and good. -/
theorem cache_never_stores_error_or_fallback_witness :
    ((dictGetD [("error", Val.vbool true)] "error" (.vbool false)).truthy = true ∨
      (dictGetD [("error", Val.vbool true)] "fallback" (.vbool false)).truthy = true) ∧
    (Cache.set cWitness ⟨[], []⟩ "p" [("error", Val.vbool true)] [] =
        (⟨[], []⟩, false) ∧
      (storeFind ⟨[], []⟩ (Cache.generate_key cWitness "p" []) = none →
        Cache.get cWitness
          (Cache.set cWitness ⟨[], []⟩ "p" [("error", Val.vbool true)] []).1
          "p" [] = none) ∧
      (∀ env2 : Dict, GoodStore ⟨[], []⟩ →
        GoodStore (Cache.set cWitness ⟨[], []⟩ "p" env2 []).1)) :=
  ⟨Or.inl (by decide),
    cache_never_stores_error_or_fallback cWitness ⟨[], []⟩ "p" []
      [("error", Val.vbool true)] (Or.inl (by decide))⟩

/-- C3.  After a successful `Cache.set` of a non-error, non-fallback
envelope, `Cache.get` with the same prompt and metadata returns an
envelope equal to the argument on every field other than the three
provenance fields, with `from_cache=True`, the fingerprint as
`cache_key`, and no `cache_latency_ms` (the provenance fields are not
part of the stored value). -/
theorem cache_get_after_set_roundtrip (c : CacheInst) (st : CacheStore)
    (prompt : String) (m env : Dict) (hconn : c.connOK = true)
    (herr : (dictGetD env "error" (.vbool false)).truthy = false)
    (hfb : (dictGetD env "fallback" (.vbool false)).truthy = false) :
    (Cache.set c st prompt env m).2 = true ∧
    ∃ ret, Cache.get c (Cache.set c st prompt env m).1 prompt m = some ret ∧
      dictGet ret "from_cache" = some (.vbool true) ∧
      dictGet ret "cache_key" =
        some (.vstr (Cache.generate_key c prompt m)) ∧
      dictGet ret "cache_latency_ms" = none ∧
      ∀ fld, fld ≠ "from_cache" → fld ≠ "cache_key" →
        fld ≠ "cache_latency_ms" → dictGet ret fld = dictGet env fld := by
  have hgood : setRefuses env = false := by
    rw [setRefuses_eq, herr, hfb]
    rfl
  have hset := cache_set_written c st prompt env m hconn hgood
  rw [hset]
  refine ⟨rfl, ?_⟩
  have hfind : storeFind (setWrites c st prompt env m)
      (Cache.generate_key c prompt m) =
      some ((if !List.isEmpty m then dictGetD m "cache_ttl" (Val.vint c.ttl)
        else Val.vint c.ttl), stripProvenance env) :=
    (storeFind_eq_of_entries _ _ (setWrites_entries c st prompt env m)
      _).trans (storeFind_setex_self st _ _ _)
  rw [show (setWrites c st prompt env m, true).1 =
    setWrites c st prompt env m from rfl,
    cache_get_connected c _ prompt m hconn, hfind]
  refine ⟨_, rfl, ?_, ?_, ?_, ?_⟩
  · rw [dictGet_insert_ne _ _ _ _ (by decide), dictGet_insert_self]
  · rw [dictGet_insert_self]
  · rw [dictGet_insert_ne _ _ _ _ (by decide),
      dictGet_insert_ne _ _ _ _ (by decide)]
    exact dictGet_erase_self _ _
  · intro fld h1 h2 h3
    rw [dictGet_insert_ne _ _ _ _ h2, dictGet_insert_ne _ _ _ _ h1]
    exact stripProvenance_get_ne env fld h1 h2 h3

/-- C3 witness: a concrete good envelope round-trips through the cache. -/
theorem cache_get_after_set_roundtrip_witness :
    cWitness.connOK = true ∧
    (dictGetD [("response", Val.vstr "hey"), ("model_used", Val.vstr "openai")]
      "error" (.vbool false)).truthy = false ∧
    (dictGetD [("response", Val.vstr "hey"), ("model_used", Val.vstr "openai")]
      "fallback" (.vbool false)).truthy = false ∧
    ((Cache.set cWitness ⟨[], []⟩ "Summarize X"
        [("response", Val.vstr "hey"), ("model_used", Val.vstr "openai")]
        [("temperature", Val.vint 0)]).2 = true ∧
      ∃ ret, Cache.get cWitness
          (Cache.set cWitness ⟨[], []⟩ "Summarize X"
            [("response", Val.vstr "hey"), ("model_used", Val.vstr "openai")]
            [("temperature", Val.vint 0)]).1 "Summarize X"
          [("temperature", Val.vint 0)] = some ret ∧
        dictGet ret "from_cache" = some (.vbool true) ∧
        dictGet ret "cache_key" =
          some (.vstr (Cache.generate_key cWitness "Summarize X"
            [("temperature", Val.vint 0)])) ∧
        dictGet ret "cache_latency_ms" = none ∧
        ∀ fld, fld ≠ "from_cache" → fld ≠ "cache_key" →
          fld ≠ "cache_latency_ms" →
          dictGet ret fld =
            dictGet [("response", Val.vstr "hey"),
              ("model_used", Val.vstr "openai")] fld) :=
  ⟨rfl, by decide, by decide,
    cache_get_after_set_roundtrip cWitness ⟨[], []⟩ "Summarize X"
      [("temperature", Val.vint 0)]
      [("response", Val.vstr "hey"), ("model_used", Val.vstr "openai")]
      rfl (by decide) (by decide)⟩

/-- C10 witness: the caller's envelope cell is untouched by a concrete
`Cache.set` call. -/
theorem cache_set_preserves_caller_envelope_witness :
    0 < ([[("response", Val.vstr "hey")]] : Cache.Heap).length ∧
    Cache.heapRead
        (Cache.setH cWitness ⟨[], []⟩ [[("response", Val.vstr "hey")]] 0
          "p" []).heap 0 =
      Cache.heapRead [[("response", Val.vstr "hey")]] 0 :=
  ⟨by decide,
    cache_set_preserves_caller_envelope cWitness ⟨[], []⟩
      [[("response", Val.vstr "hey")]] 0 "p" [] (by decide)⟩

/-! ### Classifier claims -/

/-- A memo state whose lookup misses makes `check_cache` return the pair
`(none, its second component)`. -/
theorem check_cache_miss_pair (memo : Memo) (now : Int) (key : String)
    (hmiss : (check_cache memo now key).1 = none) :
    check_cache memo now key = (none, (check_cache memo now key).2) := by
  rw [← hmiss]

/-- C2.  With no valid memo entry for the generated key, a metadata
`model` naming a registered backend key `k` makes `classify_prompt`
return `k` with confidence `1.0`, source `"metadata_override"`, and the
override reasoning blob. -/
theorem classify_prompt_metadata_override (p : String) (m : Dict)
    (memo : Memo) (now : Int) (k : String)
    (hmiss : (check_cache memo now (generate_cache_key p m)).1 = none)
    (hmodel : dictGet m "model" = some (.vstr k))
    (hreg : registryKeys.contains k = true) :
    (classify_prompt p m memo now).1 =
      (k, ⟨k, 1, "metadata_override", .override⟩) := by
  have ho : overrideKeyOf m = some k := by
    unfold overrideKeyOf
    rw [hmodel]
    show (if registryKeys.contains k = true then some k else none) = some k
    rw [hreg]
    rfl
  unfold classify_prompt
  simp only []
  rw [check_cache_miss_pair _ _ _ hmiss, ho]

/-- C2 witness: a concrete override call from the fresh (empty) memo. -/
theorem classify_prompt_metadata_override_witness :
    (check_cache [] 0
      (generate_cache_key "x" [("model", Val.vstr "local")])).1 = none ∧
    dictGet [("model", Val.vstr "local")] "model" =
      some (.vstr "local") ∧
    registryKeys.contains "local" = true ∧
    (classify_prompt "x" [("model", Val.vstr "local")] [] 0).1 =
      ("local", ⟨"local", 1, "metadata_override", .override⟩) :=
  ⟨rfl, rfl, by decide,
    classify_prompt_metadata_override "x" [("model", Val.vstr "local")]
      [] 0 "local" rfl rfl (by decide)⟩

theorem classify_miss_eq_nomemo (p : String) (m : Dict)
    (memo : Memo) (now : Int)
    (hmiss : (check_cache memo now (generate_cache_key p m)).1 = none) :
    (classify_prompt p m memo now).1 = classify_prompt_nomemo p m := by
  unfold classify_prompt classify_prompt_nomemo
  simp only []
  rw [check_cache_miss_pair _ _ _ hmiss]
  cases ho : overrideKeyOf m with
  | some k => rfl
  | none => rfl

/-- C6 (amended).  On a memo miss, `classify_prompt` returns exactly what
the memo-disabled classifier returns: the memo changes no miss-path
result. -/
theorem classify_prompt_memo_miss_eq_nomemo (p : String) (m : Dict)
    (memo : Memo) (now : Int)
    (hmiss : (check_cache memo now (generate_cache_key p m)).1 = none) :
    (classify_prompt p m memo now).1 = classify_prompt_nomemo p m :=
  classify_miss_eq_nomemo p m memo now hmiss

/-- C6 witness: miss-path equality at a concrete prompt and fresh memo. -/
theorem classify_prompt_memo_miss_eq_nomemo_witness :
    (check_cache [] 0 (generate_cache_key "hi" [])).1 = none ∧
    (classify_prompt "hi" [] [] 0).1 = classify_prompt_nomemo "hi" [] :=
  ⟨rfl, classify_prompt_memo_miss_eq_nomemo "hi" [] [] 0 rfl⟩

unseal Rat.ofScientific Rat.mul Rat.inv Rat.add Rat.sub in
set_option maxRecDepth 8000 in
/-- C6 counterexample: the memo is observable.  A second identical call
(within the 300 s TTL) returns the memoised result with
`source = "cache"`, while with the memo disabled the same call reports
`source = "rule_based"`; so the classification result is not identical
with and without the memo. -/
theorem classify_prompt_memo_changes_source :
    (classify_prompt "hi" [] ((classify_prompt "hi" [] [] 0).2) 1).1.2.source =
      "cache" ∧
    (classify_prompt_nomemo "hi" []).2.source = "rule_based" ∧
    (classify_prompt "hi" [] ((classify_prompt "hi" [] [] 0).2) 1).1.2.source ≠
      (classify_prompt_nomemo "hi" []).2.source ∧
    (classify_prompt "hi" [] ((classify_prompt "hi" [] [] 0).2) 1).1.1 =
      (classify_prompt_nomemo "hi" []).1 := by
  have h1 : (classify_prompt "hi" []
      ((classify_prompt "hi" [] [] 0).2) 1).1.2.source = "cache" := rfl
  have h2 : (classify_prompt_nomemo "hi" []).2.source = "rule_based" := rfl
  exact ⟨h1, h2, by rw [h1, h2]; decide, rfl⟩

unseal Rat.ofScientific Rat.mul Rat.inv Rat.add Rat.sub in
set_option maxRecDepth 8000 in
/-- C7 (amended).  For any prompt with zero keyword hits everywhere and an
all-zero feature vector (and no valid memo entry), the pipeline floors
`openai` and `anthropic` at `0.1`, gives `local` the fixed `+2.0`
simple-query bonus, and therefore selects `"local"` with reported
confidence `round(2.0/2.2, 3) = 0.909`, source `"rule_based"` — the
all-scores-zero default branch (`"openai"`, confidence `0.5`) is
unreachable because scores are clamped to at least `0.1`. -/
theorem classify_prompt_all_floor_selects_local (p : String) (memo : Memo)
    (now : Int)
    (hkw : count_keyword_matches p = ⟨0, 0, 0⟩)
    (hf : extract_features p = zeroFeatures)
    (hmiss : (check_cache memo now (generate_cache_key p [])).1 = none) :
    (classify_prompt p [] memo now).1.1 = "local" ∧
    (classify_prompt p [] memo now).1.2.confidence = 909 / 1000 ∧
    (classify_prompt p [] memo now).1.2.source = "rule_based" := by
  rw [classify_miss_eq_nomemo p [] memo now hmiss]
  show (classifyPipeline p []).1 = "local" ∧
    (classifyPipeline p []).2.confidence = 909 / 1000 ∧
    (classifyPipeline p []).2.source = "rule_based"
  unfold classifyPipeline
  rw [hkw, hf]
  decide

unseal Rat.ofScientific Rat.mul Rat.inv Rat.add Rat.sub in
set_option maxRecDepth 8000 in
/-- C7 witness for the amended claim: the empty prompt has zero keyword
hits and an all-zero feature vector, and is classified to `local` with
confidence `0.909`. -/
theorem classify_prompt_all_floor_selects_local_witness :
    count_keyword_matches "" = ⟨0, 0, 0⟩ ∧
    extract_features "" = zeroFeatures ∧
    (check_cache [] 0 (generate_cache_key "" [])).1 = none ∧
    ((classify_prompt "" [] [] 0).1.1 = "local" ∧
      (classify_prompt "" [] [] 0).1.2.confidence = 909 / 1000 ∧
      (classify_prompt "" [] [] 0).1.2.source = "rule_based") :=
  ⟨rfl, rfl, rfl,
    classify_prompt_all_floor_selects_local "" [] 0 rfl rfl rfl⟩

unseal Rat.ofScientific Rat.mul Rat.inv Rat.add Rat.sub in
set_option maxRecDepth 8000 in
/-- C7 counterexample: the empty prompt satisfies the claim's hypotheses
(zero keyword hits, all-zero features), yet the classifier selects
`"local"` with confidence `0.909`, not the default backend with
confidence `0.5`. -/
theorem classify_prompt_all_floor_not_default :
    count_keyword_matches "" = ⟨0, 0, 0⟩ ∧
    extract_features "" = zeroFeatures ∧
    (classify_prompt "" [] [] 0).1.1 = "local" ∧
    (classify_prompt "" [] [] 0).1.2.confidence = 909 / 1000 ∧
    (classify_prompt "" [] [] 0).1.1 ≠ "openai" ∧
    (classify_prompt "" [] [] 0).1.2.confidence ≠ 1 / 2 := by
  have h1 : (classify_prompt "" [] [] 0).1.1 = "local" := rfl
  have h2 : (classify_prompt "" [] [] 0).1.2.confidence = 909 / 1000 := rfl
  exact ⟨rfl, rfl, h1, h2, by rw [h1]; decide, by rw [h2]; decide⟩

/-! ### C4: the fingerprint depends only on the cache-relevant fields -/

instance : IsAntisymm String (fun a b => strLe a b = true) :=
  ⟨fun a b => strLe_antisymm a b⟩

theorem strLe_trans_str (a b c : String) (h1 : strLe a b = true)
    (h2 : strLe b c = true) : strLe a c = true :=
  lexLe_trans _ _ _ h1 h2

theorem strLe_total_str (a b : String) :
    (strLe a b || strLe b a) = true :=
  lexLe_total _ _

theorem contains_iff_mem (l : List String) (k : String) :
    l.contains k = true ↔ k ∈ l :=
  List.elem_iff

/-- Two well-formed dictionaries with the same bindings render to the
same sorted-keys JSON. -/
theorem dumpDictSorted_congr (d d' : Dict)
    (hnd : (dictKeys d).Nodup) (hnd' : (dictKeys d').Nodup)
    (h : ∀ k, dictGet d k = dictGet d' k) :
    dumpDictSorted d = dumpDictSorted d' := by
  have hperm : (dictKeys d).Perm (dictKeys d') :=
    List.perm_of_nodup_nodup_toFinset_eq hnd hnd' (by
      ext x
      simp only [List.mem_toFinset, mem_dictKeys_iff_isSome, h x])
  have hsorted1 :
      List.Pairwise (fun a b => strLe a b = true)
        (List.mergeSort (dictKeys d) strLe) :=
    List.sorted_mergeSort strLe_trans_str strLe_total_str _
  have hsorted2 :
      List.Pairwise (fun a b => strLe a b = true)
        (List.mergeSort (dictKeys d') strLe) :=
    List.sorted_mergeSort strLe_trans_str strLe_total_str _
  have hperm2 :
      (List.mergeSort (dictKeys d) strLe).Perm
        (List.mergeSort (dictKeys d') strLe) :=
    ((List.mergeSort_perm _ _).trans hperm).trans
      (List.mergeSort_perm _ _).symm
  have hkeys : List.mergeSort (dictKeys d) strLe =
      List.mergeSort (dictKeys d') strLe :=
    List.eq_of_perm_of_sorted hperm2 hsorted1 hsorted2
  unfold dumpDictSorted
  simp only []
  rw [hkeys]
  have hmap :
      (List.mergeSort (dictKeys d') strLe).map
          (fun k => dumpStr k ++ ": " ++ dumpVal (dictGetD d k .vnull)) =
        (List.mergeSort (dictKeys d') strLe).map
          (fun k => dumpStr k ++ ": " ++ dumpVal (dictGetD d' k .vnull)) :=
    List.map_congr_left (fun k _ => by rw [dictGetD, dictGetD, h k])
  rw [hmap]

/-- The metadata dictionary actually serialised by `_generate_key`:
the cache-relevant filter plus the synthetic `forced_model` binding. -/
def genKeyFiltered (m : Dict) : Dict :=
  if dictContains m "model" then
    dictInsert (List.filter (fun p => cacheRelevantFields.contains p.1) m)
      "forced_model" (dictGetD m "model" .vnull)
  else List.filter (fun p => cacheRelevantFields.contains p.1) m

/-- `Cache.generate_key` in assembled form (definitional repackaging). -/
theorem generate_key_eq (c : CacheInst) (prompt : String) (m : Dict) :
    Cache.generate_key c prompt m =
      c.pref ++
        (if dictContains m "model" then
          (dictGetD m "model" .vnull).pyStr ++ ":"
         else "") ++
        c.hashHex ("\x7b\"metadata\": " ++ dumpDictSorted (genKeyFiltered m) ++
          ", \"prompt\": " ++ dumpStr prompt ++ "\x7d") := rfl

theorem dictGet_genKeyFiltered (m : Dict) (k : String) :
    dictGet (genKeyFiltered m) k =
      if dictContains m "model" then
        (if k = "forced_model" then some (dictGetD m "model" .vnull)
         else if cacheRelevantFields.contains k then dictGet m k else none)
      else
        (if cacheRelevantFields.contains k then dictGet m k else none) := by
  unfold genKeyFiltered
  cases hc : dictContains m "model" with
  | false =>
    rw [if_neg (by simp), if_neg (by simp)]
    exact dictGet_filter m cacheRelevantFields k
  | true =>
    rw [if_pos rfl, if_pos rfl]
    by_cases hk : k = "forced_model"
    · subst hk
      rw [if_pos rfl, dictGet_insert_self]
    · rw [if_neg hk, dictGet_insert_ne _ _ _ _ hk]
      exact dictGet_filter m cacheRelevantFields k

theorem nodup_keys_filter (m : Dict) (hm : DictNodup m) :
    (dictKeys (List.filter
      (fun p => cacheRelevantFields.contains p.1) m)).Nodup := by
  have hsub : (dictKeys (List.filter
      (fun p => cacheRelevantFields.contains p.1) m)).Sublist (dictKeys m) :=
    List.Sublist.map _ (List.filter_sublist m)
  exact List.Nodup.sublist hsub hm

theorem nodup_keys_genKeyFiltered (m : Dict) (hm : DictNodup m) :
    (dictKeys (genKeyFiltered m)).Nodup := by
  unfold genKeyFiltered
  cases hc : dictContains m "model" with
  | false =>
    rw [if_neg (by simp)]
    exact nodup_keys_filter m hm
  | true =>
    rw [if_pos rfl]
    have hnc : dictContains (List.filter
        (fun p => cacheRelevantFields.contains p.1) m) "forced_model" = false := by
      unfold dictContains
      rw [dictGet_filter]
      rw [if_neg (by decide)]
      rfl
    rw [dictKeys_insert, hnc, if_neg (by simp)]
    refine List.Nodup.append (nodup_keys_filter m hm) (by simp) ?_
    intro x hx hx2
    rcases List.mem_singleton.mp hx2 with rfl
    have := (mem_dictKeys_iff_isSome _ _).mp hx
    rw [dictGet_filter, if_neg (by decide)] at this
    simp at this

/-- C4.  The cache fingerprint of `(prompt, metadata)` depends only on the
fields `model`, `temperature`, `max_tokens`, `user_id`, `priority`,
`language`, `stream` of the metadata: any two well-formed metadata
dictionaries agreeing on those fields (present or absent alike) produce
the same key, so every other field — `request_id` included — has no
effect. -/
theorem generate_key_depends_only_on_relevant (c : CacheInst)
    (prompt : String) (m m' : Dict) (hm : DictNodup m) (hm' : DictNodup m')
    (hagree : ∀ fld ∈ cacheRelevantFields, dictGet m fld = dictGet m' fld) :
    Cache.generate_key c prompt m = Cache.generate_key c prompt m' := by
  have hmodel : dictGet m "model" = dictGet m' "model" :=
    hagree "model" (by decide)
  have hcont : dictContains m "model" = dictContains m' "model" := by
    unfold dictContains
    rw [hmodel]
  have hgetd : dictGetD m "model" .vnull = dictGetD m' "model" .vnull := by
    unfold dictGetD
    rw [hmodel]
  have hdump : dumpDictSorted (genKeyFiltered m) =
      dumpDictSorted (genKeyFiltered m') := by
    refine dumpDictSorted_congr _ _ (nodup_keys_genKeyFiltered m hm)
      (nodup_keys_genKeyFiltered m' hm') ?_
    intro k
    rw [dictGet_genKeyFiltered, dictGet_genKeyFiltered, hcont, hgetd]
    by_cases hk : dictContains m' "model" = true
    · rw [if_pos hk, if_pos hk]
      by_cases hfm : k = "forced_model"
      · rw [if_pos hfm, if_pos hfm]
      · rw [if_neg hfm, if_neg hfm]
        by_cases hf : cacheRelevantFields.contains k = true
        · rw [if_pos hf, if_pos hf]
          exact hagree k ((contains_iff_mem _ _).mp hf)
        · rw [if_neg hf, if_neg hf]
    · rw [if_neg hk, if_neg hk]
      by_cases hf : cacheRelevantFields.contains k = true
      · rw [if_pos hf, if_pos hf]
        exact hagree k ((contains_iff_mem _ _).mp hf)
      · rw [if_neg hf, if_neg hf]
  rw [generate_key_eq, generate_key_eq, hcont, hgetd, hdump]

/-- C4 witness: injecting an unrelated `request_id` does not change the
fingerprint of a concrete metadata dictionary. -/
theorem generate_key_depends_only_on_relevant_witness :
    DictNodup [("temperature", Val.vint 0), ("request_id", Val.vstr "R")] ∧
    DictNodup [("temperature", Val.vint 0)] ∧
    (∀ fld ∈ cacheRelevantFields,
      dictGet [("temperature", Val.vint 0), ("request_id", Val.vstr "R")] fld =
        dictGet [("temperature", Val.vint 0)] fld) ∧
    Cache.generate_key cWitness "p"
        [("temperature", Val.vint 0), ("request_id", Val.vstr "R")] =
      Cache.generate_key cWitness "p" [("temperature", Val.vint 0)] :=
  ⟨by unfold DictNodup; decide, by unfold DictNodup; decide, by decide,
    generate_key_depends_only_on_relevant cWitness "p"
      [("temperature", Val.vint 0), ("request_id", Val.vstr "R")]
      [("temperature", Val.vint 0)] (by unfold DictNodup; decide)
      (by unfold DictNodup; decide) (by decide)⟩

end NeuroRoute
